import Mathlib

/-!
Verification development for the Meraki dashboard metrics exporter
(`meraki-api-exporter.py`).  The Python source is shallowly embedded:

* Python `dict`s are modelled as association lists whose insertion
  operation replaces an existing binding in place (so keys stay unique
  and lookups are unambiguous, exactly as for a Python `dict`);
* Python string truthiness (`if s:`) is modelled explicitly: a value is
  truthy when it is present (`some`) and non-empty;
* fallible code (statements that can raise `KeyError` / `IndexError` /
  `NameError`) is modelled in the `Except String` monad;
* Python floats are modelled by `ℚ`; the merge phase only copies these
  numbers around, and the one arithmetic function
  (`cpu_load_calculator`) is modelled with exact `ℚ` arithmetic together
  with an explicit round-half-even rounding step mirroring `round(x, 2)`.
-/

/-! ### Dictionary model -/

/-- Lookup in an association-list dictionary (`d.get(k)` / `d[k]`). -/
def aget {α : Type} (d : List (String × α)) (k : String) : Option α :=
  (d.find? (fun kv => kv.1 == k)).map (fun kv => kv.2)

/-- Dictionary insertion `d[k] = v`: replace the binding in place if the
key is present, otherwise append it (Python `dict` semantics). -/
def aset {α : Type} : List (String × α) → String → α → List (String × α)
  | [], k, v => [(k, v)]
  | kv :: tl, k, v => if kv.1 == k then (k, v) :: tl else kv :: aset tl k v

/-- Python string truthiness for an optional string: `None` and the empty
string are falsy, everything else is truthy. -/
def pyTruthy : Option String → Bool
  | some s => s ≠ ""
  | none => false

/-- Python `a or b` restricted to optional strings: yields `a` when `a`
is truthy, otherwise `b`. -/
def pyOr (a b : Option String) : Option String :=
  if pyTruthy a then a else b

/-! ### Substring search (`needle in haystack` on Python strings) -/

/-- `charsPrefixOf n h` holds when `n` is a prefix of `h`. -/
def charsPrefixOf : List Char → List Char → Bool
  | [], _ => true
  | _ :: _, [] => false
  | a :: as, b :: bs => a == b && charsPrefixOf as bs

/-- `charsInfixOf n h` holds when `n` occurs contiguously inside `h`. -/
def charsInfixOf (n : List Char) : List Char → Bool
  | [] => charsPrefixOf n []
  | b :: bs => charsPrefixOf n (b :: bs) || charsInfixOf n bs

/-- Python `needle in hay` on strings. -/
def containsSubstr (hay needle : String) : Bool :=
  charsInfixOf needle.toList hay.toList

/-- Python `s.upper()` (character-wise, as for the ASCII data handled
here). -/
def pyToUpper (s : String) : String := String.mk (s.data.map Char.toUpper)

/-- Python `s.lower()` (character-wise, as for the ASCII data handled
here). -/
def pyToLower (s : String) : String := String.mk (s.data.map Char.toLower)

/-- Python `s.lower().replace(' ', '_')`, the key normalization of
`parse_discovery_info`. -/
def normalizeKey (s : String) : String :=
  String.mk ((s.data.map Char.toLower).map (fun c => if c = ' ' then '_' else c))

/-- The last segment of Python `l.split(sep)` for a non-empty `sep`,
scanning left to right and consuming non-overlapping occurrences; the
fuel argument (called with more than the list length) only bounds the
recursion. -/
def pyLastSeg (sep : List Char) : Nat → List Char → List Char
  | 0, l => l
  | fuel + 1, l =>
    match l with
    | [] => []
    | _ :: rest =>
      if charsPrefixOf sep l then pyLastSeg sep fuel (l.drop sep.length)
      else if charsInfixOf sep rest then pyLastSeg sep fuel rest
      else l

/-- Python `s.split(sep)[-1]`. -/
def pySplitLast (s sep : String) : String :=
  String.mk (pyLastSeg sep.data (s.data.length + 1) s.data)

/-! ### Classification heuristics (source lines 59-133) -/

/-- Topology-discovery record stored per port by
`get_switch_ports_topology_discovery`: the inferred neighbor device type
and the discovered device name.  An arbitrary map may lack either field,
which Python reads back with `dict.get` defaults. -/
structure DiscInfo where
  device_type : Option String := none
  device_name : Option String := none
deriving DecidableEq, Repr

/-- `port_tags_map`: serial -> port id -> list of tags. -/
abbrev TagsMap : Type := List (String × List (String × List String))

/-- `port_discovery_map`: serial -> port id -> discovery info. -/
abbrev DiscMap : Type := List (String × List (String × DiscInfo))

/-- `port_statuses_map`: serial -> port id -> status string. -/
abbrev StatusMap : Type := List (String × List (String × String))

/-- The `is_tagged_uplink` computation of `is_uplink_port` (source lines
84-88): requires the map, a truthy serial present in the map, and the
tag `uplink` on the port. -/
def taggedUplinkCheck (port_tags_map : Option TagsMap)
    (serial : Option String) (port_id : String) : Bool :=
  match port_tags_map, serial with
  | some m, some s =>
    if s ≠ "" then
      match aget m s with
      | some pm => ((aget pm port_id).getD []).contains "uplink"
      | none => false
    else false
  | _, _ => false

/-- The `is_discovered_uplink` computation of `is_uplink_port` (source
lines 90-95): the discovery map records an `MS` or `MX` neighbor. -/
def discoveredUplinkCheck (port_discovery_map : Option DiscMap)
    (serial : Option String) (port_id : String) : Bool :=
  match port_discovery_map, serial with
  | some m, some s =>
    if s ≠ "" then
      match aget m s with
      | some pm =>
        let device_type := ((aget pm port_id).getD {}).device_type
        device_type == some "MS" || device_type == some "MX"
      | none => false
    else false
  | _, _ => false

/-- The `has_status_connected` computation of `is_uplink_port` (source
lines 97-101): the reported status lower-cases to `connected`. -/
def statusConnectedCheck (port_statuses_map : Option StatusMap)
    (serial : Option String) (port_id : String) : Bool :=
  match port_statuses_map, serial with
  | some m, some s =>
    if s ≠ "" then
      match aget m s with
      | some pm => (pyToLower ((aget pm port_id).getD "")) == "connected"
      | none => false
    else false
  | _, _ => false

/-- `is_uplink_port` (source lines 59-113): a port is an uplink when the
discovery map shows an MS/MX neighbor, or when it is tagged `uplink` and
its physical status is `connected`.  All three maps are optional
arguments defaulting to `None`; the serial is looked up only when it is
truthy (non-`None`, non-empty).  The three boolean locals of the Python
body are the named checks above. -/
def is_uplink_port (port_id : String) (serial : Option String := none)
    (port_tags_map : Option TagsMap := none)
    (port_discovery_map : Option DiscMap := none)
    (port_statuses_map : Option StatusMap := none) : Bool :=
  let has_tag_check := port_tags_map.isSome
  let has_discovery_check := port_discovery_map.isSome
  if !has_tag_check && !has_discovery_check then false
  else
    let is_tagged_uplink := taggedUplinkCheck port_tags_map serial port_id
    let is_discovered_uplink :=
      discoveredUplinkCheck port_discovery_map serial port_id
    let has_status_connected :=
      statusConnectedCheck port_statuses_map serial port_id
    if is_discovered_uplink then true
    else if is_tagged_uplink && has_status_connected then true
    else false

/-- `is_ap_device` (source lines 115-133): a port is an access-point
port when the discovery map records neighbor device type `MR`; in that
case the discovered device name (default `N/A`) is returned as well.
Note the Python guard `if port_discovery_map and serial and ...` uses
truthiness: an empty map or an empty serial short-circuits to the
`(False, None)` result. -/
def is_ap_device (port_id : String) (serial : Option String := none)
    (port_discovery_map : Option DiscMap := none) : Bool × Option String :=
  match port_discovery_map, serial with
  | some m, some s =>
    if !m.isEmpty && s ≠ "" then
      match aget m s with
      | some pm =>
        let port_info := (aget pm port_id).getD {}
        if port_info.device_type == some "MR" then
          (true, some (port_info.device_name.getD "N/A"))
        else (false, none)
      | none => (false, none)
    else (false, none)
  | _, _ => (false, none)

/-! ### CDP/LLDP parsing and vendor-neighbor detection (lines 539-603) -/

/-- `parse_discovery_info` (source lines 539-556): turn a list of
`name`/`value` fields into a dictionary keyed by the lower-cased,
space-to-underscore-normalized name.  A field whose `name` key is
missing contributes the key `""` in Python; such a field is represented
here by a pair with first component `""`. -/
def parse_discovery_info (info_list : List (String × String)) :
    List (String × String) :=
  info_list.foldl
    (fun result item => aset result (normalizeKey item.1) item.2)
    []

/-- The fixed set of Meraki device-type codes, in iteration order
(source line 572). -/
def meraki_prefixes : List String :=
  ["MR", "MS", "MX", "MV", "MG", "MC", "MV2", "MT"]

/-- The LLDP stage of `is_meraki_device` (source lines 590-603): reached
whenever the CDP stage does not return.  Requires the vendor keyword
`MERAKI` in the concatenated upper-cased system name and description,
then returns the first matching device-type code. -/
def lldpStage (lldp_list : List (String × String)) :
    Bool × Option String × Option (List (String × String)) :=
  let lldp_info := parse_discovery_info lldp_list
  if !lldp_info.isEmpty then
    let system_name := (aget lldp_info "system_name").getD ""
    let system_description := (aget lldp_info "system_description").getD ""
    let combined_text := pyToUpper (system_name ++ " " ++ system_description)
    if containsSubstr combined_text "MERAKI" then
      match meraki_prefixes.find? (fun p => containsSubstr combined_text p) with
      | some p => (true, some p, some lldp_info)
      | none => (false, none, none)
    else (false, none, none)
  else (false, none, none)

/-- `is_meraki_device` (source lines 558-603).  The CDP stage first
scans the platform string for any device-type code and returns
immediately on a match; only if no code matched does it test for the
vendor keyword and rescan (a rescan that can never succeed), after which
control falls through to the LLDP stage. -/
def is_meraki_device (cdp_list lldp_list : List (String × String)) :
    Bool × Option String × Option (List (String × String)) :=
  let cdp_info := parse_discovery_info cdp_list
  if !cdp_info.isEmpty then
    let platform := (aget cdp_info "platform").getD ""
    match meraki_prefixes.find? (fun p => containsSubstr (pyToUpper platform) p) with
    | some p => (true, some p, some cdp_info)
    | none =>
      if containsSubstr (pyToUpper platform) "MERAKI" then
        match meraki_prefixes.find? (fun p => containsSubstr (pyToUpper platform) p) with
        | some p => (true, some p, some cdp_info)
        | none => lldpStage lldp_list
      else lldpStage lldp_list
  else lldpStage lldp_list

/-- `extract_device_name` (source lines 656-670): split the system name
on `" - "` and keep the last part; empty or `N/A` input yields `N/A`. -/
def extract_device_name (system_name : String) : String :=
  if system_name = "" ∨ system_name = "N/A" then "N/A"
  else pySplitLast system_name " - "

/-! ### Derived metric calculator (source lines 423-460) -/

/-- Round-half-even on `ℚ`, the tie-breaking rule of Python `round`. -/
def roundHalfEven (x : ℚ) : ℤ :=
  let f := ⌊x⌋
  let frac := x - f
  if frac < 1/2 then f
  else if frac > 1/2 then f + 1
  else if f % 2 = 0 then f else f + 1

/-- Python `round(x, 2)` modelled over `ℚ`. -/
def pyRound2 (x : ℚ) : ℚ := (roundHalfEven (x * 100) : ℚ) / 100

/-- `cpu_load_calculator` (source lines 423-460): normalize a raw
load-average sample to a 0-100 percentage given the core count. -/
def cpu_load_calculator (core_count : ℤ) (load_value : ℚ) : ℚ :=
  let normalization_factor : ℚ := 65536
  let per_cpu_load_cap : ℚ := 3/2
  if core_count ≤ 0 then 0
  else
    let normalized_load := load_value / normalization_factor
    let per_cpu_load := normalized_load / (core_count : ℚ)
    let clamped_value := min per_cpu_load per_cpu_load_cap
    let normalized_value := clamped_value / per_cpu_load_cap
    pyRound2 (normalized_value * 100)

/-- `normalizeCpuLoad` as the specification words it: per-core load
`(raw / 65536) / coreCount`, clamped at `1.5`, normalized by the cap,
scaled to 100 and rounded to two decimals; `0.0` for a non-positive
core count. -/
def normalizeCpuLoadSpec (coreCount : ℤ) (rawSample : ℚ) : ℚ :=
  if coreCount ≤ 0 then 0
  else pyRound2 (min ((rawSample / 65536) / (coreCount : ℚ)) (3/2) / (3/2) * 100)

/-! ### Feed record shapes (§6 of the upstream API, as the code reads them)

Every field a Python statement reads with `d[k]` or `d.get(k, ...)` is an
`Option`; `none` models an absent key (for `d[k]` that is a `KeyError`).
List-valued fields read with a `[]` default are plain lists. -/

/-- One element of a latency record's `timeSeries`. -/
structure TimeSample where
  latencyMs : Option ℚ := none
  lossPercent : Option ℚ := none
deriving DecidableEq, Repr

/-- One record of the uplink loss/latency feed. -/
structure LatencyRecord where
  serial : Option String := none
  timeSeries : Option (List TimeSample) := none
deriving DecidableEq, Repr

/-- One element of an uplink-status record's `uplinks` list. -/
structure UplinkEntry where
  interface : Option String := none
  status : Option String := none
deriving DecidableEq, Repr

/-- One record of the appliance uplink-statuses feed. -/
structure UplinkRecord where
  serial : Option String := none
  uplinks : Option (List UplinkEntry) := none
deriving DecidableEq, Repr

/-- One element of a VPN record's `exportedSubnets`. -/
structure SubnetRecord where
  subnet : Option String := none
deriving DecidableEq, Repr

/-- One record of the VPN-statuses feed.  The two peer lists are copied
verbatim by the merge, so their elements are left opaque (strings). -/
structure VpnRecord where
  deviceSerial : Option String := none
  vpnMode : Option String := none
  exportedSubnets : Option (List SubnetRecord) := none
  merakiVpnPeers : Option (List String) := none
  thirdPartyVpnPeers : Option (List String) := none
deriving DecidableEq, Repr

/-- The `total`/`upstream`/`downstream` leaves of a usage interval. -/
structure UsageValues where
  total : Option ℚ := none
  upstream : Option ℚ := none
  downstream : Option ℚ := none
deriving DecidableEq, Repr

/-- The `data` / `bandwidth` sub-objects of an interval, each holding a
`usage` object. -/
structure UsageEnvelope where
  usage : Option UsageValues := none
deriving DecidableEq, Repr

/-- One interval sample of a switch port. -/
structure UsageInterval where
  data : Option UsageEnvelope := none
  bandwidth : Option UsageEnvelope := none
deriving DecidableEq, Repr

/-- One port of a switch-port-usage record; `intervals` read with a
falsy check, so an absent/empty value is the empty list. -/
structure UsagePort where
  portId : Option String := none
  intervals : List UsageInterval := []
deriving DecidableEq, Repr

/-- One record (one switch) of the switch-port-usage feed. -/
structure UsageDevice where
  serial : Option String := none
  ports : List UsagePort := []
deriving DecidableEq, Repr

/-- One record of the primary device-availabilities feed. `network` is
`some i` when the record has a `network` key holding a dict whose
optional `id` is `i`. -/
structure RawDevice where
  serial : Option String := none
  name : Option String := none
  displayName : Option String := none
  mac : Option String := none
  model : Option String := none
  productType : Option String := none
  product_type : Option String := none
  network : Option (Option String) := none
  networkId : Option String := none
  network_id : Option String := none
  status : Option String := none
  wan1Ip : Option String := none
  wan2Ip : Option String := none
  lanIp : Option String := none
  publicIp : Option String := none
  usingCellularFailover : Option Bool := none
deriving DecidableEq, Repr

/-- One port of a switch-port-statuses record. -/
structure StatusPort where
  portId : Option String := none
  status : Option String := none
deriving DecidableEq, Repr

/-- One record (one switch) of the switch-port-statuses feed. -/
structure StatusSwitch where
  serial : Option String := none
  ports : List StatusPort := []
deriving DecidableEq, Repr

/-- One port of a switch-ports-by-switch (tags) record. -/
structure TagPort where
  portId : Option String := none
  tags : List String := []
deriving DecidableEq, Repr

/-- One record (one switch) of the switch-ports-by-switch (tags) feed. -/
structure TagSwitch where
  serial : Option String := none
  ports : List TagPort := []
deriving DecidableEq, Repr

/-- One port of a topology-discovery record. -/
structure TopoPort where
  portId : Option String := none
  cdp : List (String × String) := []
  lldp : List (String × String) := []
deriving DecidableEq, Repr

/-- One record (one switch) of the topology-discovery feed. -/
structure TopoSwitch where
  serial : Option String := none
  ports : List TopoPort := []
deriving DecidableEq, Repr

/-- One device listed on a floor plan. -/
structure FloorDevice where
  serial : Option String := none
deriving DecidableEq, Repr

/-- One floor plan. -/
structure FloorPlan where
  name : Option String := none
  devices : List FloorDevice := []
deriving DecidableEq, Repr

/-- `counts.byStatus` of a wireless-clients-overview record. -/
structure ByStatusCounts where
  online : Option ℕ := none
deriving DecidableEq, Repr

/-- `counts` of a wireless-clients-overview record. -/
structure ClientCounts where
  byStatus : Option ByStatusCounts := none
deriving DecidableEq, Repr

/-- One record of the wireless-clients-overview feed. -/
structure ClientDevice where
  serial : Option String := none
  counts : Option ClientCounts := none
deriving DecidableEq, Repr

/-- One element of a CPU-load record's `series`. -/
structure CpuSeriesPoint where
  cpuLoad5 : Option ℚ := none
deriving DecidableEq, Repr

/-- One record of the wireless CPU-load-history feed.  `cpuCount` is
part of the documented schema and is modelled as always present (a
record without it would make `cpu_load_calculator` raise a `TypeError`
on `None <= 0`, a shape outside the claims considered here). -/
structure CpuDevice where
  serial : Option String := none
  cpuCount : ℤ := 0
  series : List CpuSeriesPoint := []
deriving DecidableEq, Repr

/-- One interval of a memory-usage record;
`memory.used.percentages.maximum` is read with defaults at each level,
so the chain is flattened to one optional leaf. -/
structure MemoryInterval where
  maximumUsedPercent : Option ℚ := none
deriving DecidableEq, Repr

/-- One record of the memory-usage-history feed; `intervals` is read as
`device.get('intervals') or []`. -/
structure MemoryDevice where
  serial : Option String := none
  intervals : List MemoryInterval := []
deriving DecidableEq, Repr

/-- One record of the networks feed (`id` and `name` both read with
`.get`, so either may be missing). -/
structure NetworkRecord where
  id : Option String := none
  name : Option String := none
deriving DecidableEq, Repr

/-- The organization record; only `name` is consumed. -/
structure OrgData where
  name : Option String := none
deriving DecidableEq, Repr

/-- An upstream response: either an envelope dict with an `items` key,
or a bare list.  (`isinstance(response, dict) and 'items' in response`
distinguishes the two in the source.) -/
inductive ApiResponse (α : Type) where
  | envelope (items : List α)
  | bare (items : List α)
deriving DecidableEq, Repr

/-! ### Per-source fetch workers (pure post-call processing)

Each worker below is the body of one collection thread after its
upstream call returned `response`; it produces the content of the
thread's output slot.  `get_switch_ports_status_map` is `Except`-valued
because its body can raise even on a successful upstream call: the
variable holding the item list is only assigned in the envelope branch,
so a bare-list response leaves it unbound (`NameError`). -/

/-- `get_switch_ports_usage` (source lines 182-228), post-call: an
envelope keeps only devices with a non-empty `ports` list in which some
port has interval data; a bare list is extended verbatim. -/
def get_switch_ports_usage (response : ApiResponse UsageDevice) :
    List UsageDevice :=
  match response with
  | .envelope all_devices =>
    all_devices.filter (fun device =>
      !device.ports.isEmpty &&
        device.ports.any (fun port => !port.intervals.isEmpty))
  | .bare items => items

/-- The inner loop of `get_switch_ports_status_map`: per-port statuses
of one switch, skipping falsy statuses. -/
def buildStatusInner (ports : List StatusPort) : List (String × String) :=
  ports.foldl
    (fun pm port =>
      let port_id := port.portId.getD ""
      let status := port.status.getD ""
      if status ≠ "" then aset pm port_id status else pm)
    []

/-- `get_switch_ports_status_map` (source lines 230-272): only the
envelope branch assigns `switches_statuses`; any other response shape
raises `NameError`, which the surrounding `except` clause re-raises. -/
def get_switch_ports_status_map (response : ApiResponse StatusSwitch) :
    Except String StatusMap :=
  match response with
  | .envelope switches_statuses =>
    .ok (switches_statuses.foldl
      (fun m switch =>
        match switch.serial with
        | some serial =>
          if serial ≠ "" then aset m serial (buildStatusInner switch.ports) else m
        | none => m)
      [])
  | .bare _ => .error "NameError: name switches_statuses is not defined"

/-- `get_switch_ports_tags_map` (source lines 274-312): normalizes both
response shapes, then maps serial -> port id -> tags (only non-empty tag
lists are stored). -/
def get_switch_ports_tags_map (response : ApiResponse TagSwitch) : TagsMap :=
  let switches_data :=
    match response with
    | .envelope items => items
    | .bare items => items
  switches_data.foldl
    (fun m switch =>
      match switch.serial with
      | some serial =>
        if serial ≠ "" then
          aset m serial (switch.ports.foldl
            (fun pm port =>
              let port_id := port.portId.getD ""
              if !port.tags.isEmpty then aset pm port_id port.tags else pm)
            [])
        else m
      | none => m)
    []

/-- `get_switch_ports_topology_discovery` (source lines 314-362):
normalizes both response shapes; for each port with CDP or LLDP data
that `is_meraki_device` recognizes, stores the device type and the
device name extracted from the parsed LLDP system name. -/
def get_switch_ports_topology_discovery (response : ApiResponse TopoSwitch) :
    DiscMap :=
  let topology_data :=
    match response with
    | .envelope items => items
    | .bare items => items
  topology_data.foldl
    (fun m switch =>
      match switch.serial with
      | some serial =>
        if serial ≠ "" then
          aset m serial (switch.ports.foldl
            (fun pm port =>
              let port_id := port.portId.getD ""
              if !port.cdp.isEmpty || !port.lldp.isEmpty then
                match is_meraki_device port.cdp port.lldp with
                | (true, device_type, _) =>
                  let lldp_parsed := parse_discovery_info port.lldp
                  aset pm port_id
                    { device_type := device_type,
                      device_name := some (extract_device_name
                        ((aget lldp_parsed "system_name").getD "N/A")) }
                | _ => pm
              else pm)
            [])
        else m
      | none => m)
    []

/-- `get_floor_name_per_device` (source lines 605-654), post-call: maps
each device serial found on a floor plan to the floor name (plans taken
across all networks, flattened). -/
def get_floor_name_per_device (floor_list : List FloorPlan) :
    List (String × String) :=
  floor_list.foldl
    (fun info floor =>
      let floor_name := floor.name.getD "N/A"
      floor.devices.foldl
        (fun info device =>
          match device.serial with
          | some serial => if serial ≠ "" then aset info serial floor_name else info
          | none => info)
        info)
    []

/-- `get_wireless_ap_clients` (source lines 364-417), post-call: maps
each serial to `counts.byStatus.online` (default 0). -/
def get_wireless_ap_clients (response : ApiResponse ClientDevice) :
    List (String × ℕ) :=
  let all_devices :=
    match response with
    | .envelope items => items
    | .bare items => items
  all_devices.foldl
    (fun info device =>
      let client_count := ((device.counts.getD {}).byStatus.getD {}).online.getD 0
      match device.serial with
      | some serial => if serial ≠ "" then aset info serial client_count else info
      | none => info)
    []

/-- `get_wireless_ap_cpu_load_history` (source lines 462-496),
post-call: for each record with a truthy serial and non-empty series,
stores the calculated CPU percentage of the most recent sample. -/
def get_wireless_ap_cpu_load_history (response : ApiResponse CpuDevice) :
    List (String × ℚ) :=
  let all_devices :=
    match response with
    | .envelope items => items
    | .bare items => items
  all_devices.foldl
    (fun loads device =>
      match device.serial, device.series.getLast? with
      | some serial, some last =>
        if serial ≠ "" then
          aset loads serial
            (cpu_load_calculator device.cpuCount (last.cpuLoad5.getD 0))
        else loads
      | _, _ => loads)
    []

/-- `get_device_memory_usage` (source lines 499-533), post-call: maps
each truthy serial to the last interval's maximum used-memory
percentage, or 0 without intervals. -/
def get_device_memory_usage (response : ApiResponse MemoryDevice) :
    List (String × ℚ) :=
  let all_devices :=
    match response with
    | .envelope items => items
    | .bare items => items
  all_devices.foldl
    (fun usage device =>
      let memory_used_percentage :=
        match device.intervals.getLast? with
        | some last => last.maximumUsedPercent.getD 0
        | none => 0
      match device.serial with
      | some serial =>
        if serial ≠ "" then aset usage serial memory_used_percentage else usage
      | none => usage)
    []

/-- The network-name lookup `networks_map` built inside `get_usage`
(source line 744): a dict comprehension keyed by the optional network
ids, holding optional names. -/
abbrev NetworksMap : Type := List (Option String × Option String)

/-- Lookup in `networks_map` (`networks_map.get(network_id)`). -/
def oget (d : NetworksMap) (k : Option String) : Option (Option String) :=
  (d.find? (fun kv => kv.1 == k)).map (fun kv => kv.2)

/-- Insertion into `networks_map` (dict-comprehension step). -/
def oset : NetworksMap → Option String → Option String → NetworksMap
  | [], k, v => [(k, v)]
  | kv :: tl, k, v => if kv.1 == k then (k, v) :: tl else kv :: oset tl k v

/-- Build `networks_map` from the networks feed. -/
def mkNetworksMap (networks : List NetworkRecord) : NetworksMap :=
  networks.foldl (fun m n => oset m n.id n.name) []

/-! ### The merged per-device record -/

/-- The per-port record stored under `switchPortUsage` (source lines
861-881).  Every field is optional: byte-usage fields are written only
when usage collection is enabled, `ap_device_name` only for
access-point ports. -/
structure PortUsage where
  UsageTotalBytes : Option ℚ := none
  UsageUpstreamBytes : Option ℚ := none
  UsageDownstreamBytes : Option ℚ := none
  bandwidthTotalKbps : Option ℚ := none
  bandwidthUpstreamKbps : Option ℚ := none
  bandwidthDownstreamKbps : Option ℚ := none
  ap_device_name : Option String := none
deriving DecidableEq, Repr

/-- One value of the output mapping `the_list` built by `get_usage`: a
Python dict whose possible keys are fixed by the merge code, modelled as
a record of optional fields.  `missing_data` models the presence of the
`"missing data"` key that stub records are created with. -/
structure Entry where
  missing_data : Bool := false
  orgName : Option String := none
  name : Option String := none
  model : Option String := none
  mac : Option String := none
  networkName : Option String := none
  status : Option String := none
  productType : Option String := none
  floor_name : Option String := none
  wan1Ip : Option String := none
  wan2Ip : Option String := none
  lanIp : Option String := none
  publicIp : Option String := none
  usingCellularFailover : Option Bool := none
  latencyMs : Option ℚ := none
  lossPercent : Option ℚ := none
  uplinks : Option (List (String × String)) := none
  vpnMode : Option String := none
  exportedSubnets : Option (List String) := none
  merakiVpnPeers : Option (List String) := none
  thirdPartyVpnPeers : Option (List String) := none
  switchPortUsage : Option (List (String × PortUsage)) := none
  wirelessClientCount : Option ℕ := none
  wirelessApCpuLoadPercent : Option ℚ := none
  memoryUsedPercent : Option ℚ := none
deriving DecidableEq, Repr

/-- The output mapping `the_list`, keyed by serial. -/
abbrev EMap : Type := List (String × Entry)

/-- `the_list.get(serial)`. -/
def eget (m : EMap) (s : String) : Option Entry := aget m s

/-- `the_list[serial] = entry`. -/
def eset (m : EMap) (s : String) (e : Entry) : EMap := aset m s e

/-- In-place update of the entry under `s` (models statements of the
form `the_list[s][field] = value`, which require the key to exist). -/
def eupd : EMap → String → (Entry → Entry) → EMap
  | [], _, _ => []
  | kv :: tl, s, f => if kv.1 == s then (kv.1, f kv.2) :: tl else kv :: eupd tl s f

/-- The stub record `{"missing data": True}` created when a secondary
feed references a serial absent from the mapping. -/
def stubEntry : Entry := { missing_data := true }

/-- The `try the_list[serial] / except KeyError: the_list[serial] =
{"missing data": True}` pattern. -/
def ensureEntry (m : EMap) (s : String) : EMap :=
  if (eget m s).isSome then m else eset m s stubEntry

/-- IP-field filter: set only when present and not in `(None, '')`. -/
def ipField (v : Option String) : Option String :=
  match v with
  | some s => if s ≠ "" then some s else none
  | none => none

/-! ### Merge pass 1: seeding from the primary inventory (lines 752-807) -/

/-- The entry created for one primary-inventory device with truthy
serial (source lines 758-807). -/
def mkSeedEntry (org_data : OrgData) (networks_map : NetworksMap)
    (devices_floor_info : List (String × String)) (serial : String)
    (device : RawDevice) : Entry :=
  let name := pyOr (pyOr (pyOr device.name device.displayName) device.mac)
    (some serial)
  let model := pyOr (pyOr device.model device.productType) device.product_type
  let network_id := pyOr (pyOr device.network.join device.networkId)
    device.network_id
  let networkName : Option String :=
    if pyTruthy network_id then
      let nid := network_id.getD ""
      let network_name : Option String :=
        if !networks_map.isEmpty then (oget networks_map (some nid)).join
        else none
      some (match network_name with
        | some network_name => network_name
        | none => nid)
    else none
  let floor_name := aget devices_floor_info serial
  { orgName := some (org_data.name.getD "")
    name := if pyTruthy name then name else none
    model := if pyTruthy model then model else none
    mac := if pyTruthy device.mac then device.mac else none
    networkName := networkName
    status := if pyTruthy device.status then device.status else none
    productType := if pyTruthy device.productType then device.productType else none
    floor_name := if pyTruthy floor_name then floor_name else none
    wan1Ip := ipField device.wan1Ip
    wan2Ip := ipField device.wan2Ip
    lanIp := ipField device.lanIp
    publicIp := ipField device.publicIp
    usingCellularFailover := device.usingCellularFailover }

/-- Pass 1: seed the mapping from `devices_and_statuses`; records
without a truthy serial are skipped. -/
def seedPass (org_data : OrgData) (networks_map : NetworksMap)
    (devices_floor_info : List (String × String))
    (devices_and_statuses : List RawDevice) : EMap :=
  devices_and_statuses.foldl
    (fun the_list device =>
      match device.serial with
      | some serial =>
        if serial ≠ "" then
          eset the_list serial
            (mkSeedEntry org_data networks_map devices_floor_info serial device)
        else the_list
      | none => the_list)
    []

/-! ### Merge pass 2: latency/loss (source lines 809-816) -/

/-- One step of the latency pass: stub-if-absent, then copy the last
time-series sample's `latencyMs` and `lossPercent`.  Each dict access
(`device['serial']`, `device['timeSeries']`, `[-1]`, sample fields) can
raise. -/
def latStep (the_list : EMap) (device : LatencyRecord) : Except String EMap :=
  match device.serial with
  | none => .error "KeyError: serial"
  | some s =>
    let the_list := ensureEntry the_list s
    match device.timeSeries with
    | none => .error "KeyError: timeSeries"
    | some ts =>
      match ts.getLast? with
      | none => .error "IndexError: list index out of range"
      | some last =>
        match last.latencyMs, last.lossPercent with
        | some lat, some loss =>
          .ok (eupd the_list s (fun e =>
            { e with latencyMs := some lat, lossPercent := some loss }))
        | _, _ => .error "KeyError: latencyMs or lossPercent"

/-- Pass 2 over the whole latency feed. -/
def latPass (the_list : EMap) (firewall_latencies : List LatencyRecord) :
    Except String EMap :=
  firewall_latencies.foldlM latStep the_list

/-! ### Merge pass 3: uplink statuses (source lines 818-825) -/

/-- The body of the inner loop of the uplink pass (source lines
824-825): copy one interface/status pair into the entry's `uplinks`
dict; either key access can raise. -/
def uplinkFoldStep (s : String) (m : EMap) (uplink : UplinkEntry) :
    Except String EMap :=
  match uplink.interface, uplink.status with
  | some itf, some st =>
    .ok (eupd m s (fun e =>
      { e with uplinks := some (aset (e.uplinks.getD []) itf st) }))
  | _, _ => .error "KeyError: interface or status"

/-- One step of the uplink pass: stub-if-absent, reset `uplinks` to an
empty dict, then copy each interface/status pair. -/
def uplinkStep (the_list : EMap) (device : UplinkRecord) : Except String EMap :=
  match device.serial with
  | none => .error "KeyError: serial"
  | some s =>
    let the_list := ensureEntry the_list s
    let the_list := eupd the_list s (fun e => { e with uplinks := some [] })
    match device.uplinks with
    | none => .error "KeyError: uplinks"
    | some ups => ups.foldlM (uplinkFoldStep s) the_list

/-- Pass 3 over the whole uplink-statuses feed. -/
def uplinkPass (the_list : EMap)
    (firewall_uplink_statuses : List UplinkRecord) : Except String EMap :=
  firewall_uplink_statuses.foldlM uplinkStep the_list

/-! ### Merge pass 4: VPN statuses (source lines 827-837, gated) -/

/-- One step of the VPN pass: stub-if-absent, then copy mode, exported
subnets (each read as `subnet['subnet']`) and the two peer lists. -/
def vpnStep (the_list : EMap) (vpn : VpnRecord) : Except String EMap :=
  match vpn.deviceSerial with
  | none => .error "KeyError: deviceSerial"
  | some s =>
    let the_list := ensureEntry the_list s
    match vpn.vpnMode with
    | none => .error "KeyError: vpnMode"
    | some mode =>
      let the_list := eupd the_list s (fun e => { e with vpnMode := some mode })
      match vpn.exportedSubnets with
      | none => .error "KeyError: exportedSubnets"
      | some subnets =>
        match subnets.mapM (fun sr => sr.subnet) with
        | none => .error "KeyError: subnet"
        | some subnet_list =>
          match vpn.merakiVpnPeers, vpn.thirdPartyVpnPeers with
          | some mvp, some tvp =>
            .ok (eupd the_list s (fun e =>
              { e with exportedSubnets := some subnet_list,
                       merakiVpnPeers := some mvp,
                       thirdPartyVpnPeers := some tvp }))
          | _, _ => .error "KeyError: merakiVpnPeers or thirdPartyVpnPeers"

/-- The configuration toggles `COLLECT_EXTRA` (`--vpn`, `--usage`). -/
structure MergeCfg where
  collectVpn : Bool := false
  collectUsage : Bool := false
deriving DecidableEq, Repr

/-- Pass 4 over the VPN feed, run only when VPN collection is on. -/
def vpnPass (cfg : MergeCfg) (the_list : EMap)
    (vpn_statuses : List VpnRecord) : Except String EMap :=
  if cfg.collectVpn then vpn_statuses.foldlM vpnStep the_list
  else .ok the_list

/-! ### Merge pass 5: switch port usage (source lines 839-881) -/

/-- The per-port record update of the usage pass (source lines
862-881): starting from the existing record for the port (or a fresh
empty dict), write the byte-usage fields when enabled, the bandwidth
fields always (each leaf defaulting to 0), and the AP device name when
the port is access-point-attached. -/
def builtPortUsage (cfg : MergeCfg) (latest_interval : UsageInterval)
    (ap : Bool × Option String) (pu : PortUsage) : PortUsage :=
  let pu :=
    if cfg.collectUsage then
      let data_usage := (latest_interval.data.getD {}).usage.getD {}
      { pu with
        UsageTotalBytes := some (data_usage.total.getD 0),
        UsageUpstreamBytes := some (data_usage.upstream.getD 0),
        UsageDownstreamBytes := some (data_usage.downstream.getD 0) }
    else pu
  let bandwidth := (latest_interval.bandwidth.getD {}).usage.getD {}
  let pu :=
    { pu with
      bandwidthTotalKbps := some (bandwidth.total.getD 0),
      bandwidthUpstreamKbps := some (bandwidth.upstream.getD 0),
      bandwidthDownstreamKbps := some (bandwidth.downstream.getD 0) }
  if ap.1 then { pu with ap_device_name := ap.2 } else pu

/-- The per-port body of the usage pass.  A port without interval data
is skipped before classification, so the later `intervals[-1]` is
guarded and this inner loop is total. -/
def portStep (cfg : MergeCfg) (port_tags_map : TagsMap)
    (port_discovery_map : DiscMap) (port_statuses_map : StatusMap)
    (s : String) (the_list : EMap) (port : UsagePort) : EMap :=
  let port_id := port.portId.getD ""
  match port.intervals.getLast? with
  | none => the_list
  | some latest_interval =>
    let is_uplink := is_uplink_port port_id (some s) (some port_tags_map)
      (some port_discovery_map) (some port_statuses_map)
    let ap := is_ap_device port_id (some s) (some port_discovery_map)
    if !is_uplink && !ap.1 then the_list
    else
      eupd the_list s (fun e =>
        let spu := e.switchPortUsage.getD []
        { e with
          switchPortUsage := some (aset spu port_id
            (builtPortUsage cfg latest_interval ap ((aget spu port_id).getD {}))) })

/-- One step of the usage pass: `device['serial']` (may raise),
stub-if-absent, then the per-port loop. -/
def usageStep (cfg : MergeCfg) (port_tags_map : TagsMap)
    (port_discovery_map : DiscMap) (port_statuses_map : StatusMap)
    (the_list : EMap) (device : UsageDevice) : Except String EMap :=
  match device.serial with
  | none => .error "KeyError: serial"
  | some s =>
    let the_list := ensureEntry the_list s
    .ok (device.ports.foldl
      (portStep cfg port_tags_map port_discovery_map port_statuses_map s)
      the_list)

/-- Pass 5 over the whole switch-port-usage feed. -/
def usagePass (cfg : MergeCfg) (port_tags_map : TagsMap)
    (port_discovery_map : DiscMap) (port_statuses_map : StatusMap)
    (the_list : EMap) (switch_ports_usage : List UsageDevice) :
    Except String EMap :=
  switch_ports_usage.foldlM
    (usageStep cfg port_tags_map port_discovery_map port_statuses_map)
    the_list

/-! ### Merge passes 6-8: wireless clients, AP CPU load, memory
(source lines 883-901); these update only existing entries. -/

/-- Pass 6: wireless client counts (`if serial in the_list`). -/
def clientsPass (the_list : EMap) (ap_clients_info : List (String × ℕ)) :
    EMap :=
  ap_clients_info.foldl
    (fun m kv =>
      if (eget m kv.1).isSome then
        eupd m kv.1 (fun e => { e with wirelessClientCount := some kv.2 })
      else m)
    the_list

/-- Pass 7: wireless AP CPU load percentages. -/
def cpuPass (the_list : EMap) (ap_cpu_loads : List (String × ℚ)) : EMap :=
  ap_cpu_loads.foldl
    (fun m kv =>
      if (eget m kv.1).isSome then
        eupd m kv.1 (fun e => { e with wirelessApCpuLoadPercent := some kv.2 })
      else m)
    the_list

/-- Pass 8: device memory usage percentages. -/
def memPass (the_list : EMap) (device_memory_usage : List (String × ℚ)) :
    EMap :=
  device_memory_usage.foldl
    (fun m kv =>
      if (eget m kv.1).isSome then
        eupd m kv.1 (fun e => { e with memoryUsedPercent := some kv.2 })
      else m)
    the_list

/-- The collected slot contents at the moment all threads have been
joined, i.e. the inputs of the merge phase of `get_usage`. -/
structure MergeInputs where
  devices_and_statuses : List RawDevice := []
  firewall_latencies : List LatencyRecord := []
  firewall_uplink_statuses : List UplinkRecord := []
  vpn_statuses : List VpnRecord := []
  org_data : OrgData := {}
  switch_ports_usage : List UsageDevice := []
  port_statuses_map : StatusMap := []
  port_tags_map : TagsMap := []
  port_discovery_map : DiscMap := []
  devices_floor_info : List (String × String) := []
  ap_clients_info : List (String × ℕ) := []
  ap_cpu_loads : List (String × ℚ) := []
  device_memory_usage : List (String × ℚ) := []
  networks_map : NetworksMap := []
deriving DecidableEq, Repr

/-- The merge phase of `get_usage` (source lines 748-908): the fixed
pass sequence over the joined slot contents.  An uncaught exception in
any pass aborts the whole merge (and hence the scrape), which the
`Except` propagation models. -/
def get_usage_merge (cfg : MergeCfg) (inp : MergeInputs) : Except String EMap :=
  (latPass
      (seedPass inp.org_data inp.networks_map inp.devices_floor_info
        inp.devices_and_statuses)
      inp.firewall_latencies).bind (fun m1 =>
    (uplinkPass m1 inp.firewall_uplink_statuses).bind (fun m2 =>
      (vpnPass cfg m2 inp.vpn_statuses).bind (fun m3 =>
        (usagePass cfg inp.port_tags_map inp.port_discovery_map
            inp.port_statuses_map m3 inp.switch_ports_usage).map (fun m4 =>
          memPass (cpuPass (clientsPass m4 inp.ap_clients_info)
              inp.ap_cpu_loads)
            inp.device_memory_usage))))

/-! ### The fetch phase: threads and exception confinement

Each fetcher runs on its own `threading.Thread`.  In Python an uncaught
exception inside a thread's target is printed by the default excepthook
and swallowed; `thread.join()` returns normally.  Consequently a raising
fetcher (including the two that re-`raise` after logging) leaves its
pre-allocated output slot in whatever state it reached — for every
fetcher modelled here, the upstream call is the first fallible
operation performed before any write, so a failed call leaves the slot
empty.  `get_usage` then proceeds to the merge with the joined slots. -/

/-- The result of one fetcher thread: the upstream call either returns a
response or raises; a raising worker leaves its slot at `empty`. -/
def threadSlot {α β : Type} (empty : β) (call : Except String α)
    (worker : α → β) : β :=
  match call with
  | .ok response => worker response
  | .error _ => empty

/-- Like `threadSlot` for a worker whose own body can also raise after a
successful call (before writing anything). -/
def threadSlotE {α β : Type} (empty : β) (call : Except String α)
    (worker : α → Except String β) : β :=
  match call with
  | .ok response =>
    match worker response with
    | .ok out => out
    | .error _ => empty
  | .error _ => empty

/-- The outcomes of the upstream calls of one collection cycle: each
field is the response of one fetcher's API call, or the exception it
raised. -/
structure FetchInputs where
  devicesCall : Except String (List RawDevice) := .ok []
  latencyCall : Except String (List LatencyRecord) := .ok []
  uplinksCall : Except String (List UplinkRecord) := .ok []
  vpnCall : Except String (List VpnRecord) := .ok []
  orgCall : Except String OrgData := .ok {}
  switchUsageCall : Except String (ApiResponse UsageDevice) := .ok (.bare [])
  switchStatusCall : Except String (ApiResponse StatusSwitch) := .ok (.envelope [])
  switchTagsCall : Except String (ApiResponse TagSwitch) := .ok (.bare [])
  topologyCall : Except String (ApiResponse TopoSwitch) := .ok (.bare [])
  floorCall : Except String (List FloorPlan) := .ok []
  clientsCall : Except String (ApiResponse ClientDevice) := .ok (.bare [])
  cpuCall : Except String (ApiResponse CpuDevice) := .ok (.bare [])
  memoryCall : Except String (ApiResponse MemoryDevice) := .ok (.bare [])
  networksCall : Except String (List NetworkRecord) := .ok []

/-- The fetch phase of `get_usage` (source lines 682-746): run every
worker thread, join, and gather the slots.  The VPN thread is started
only when VPN collection is enabled.  The networks fetch (lines 740-746)
runs on the request thread inside `try/except` with an empty-lookup
fallback, giving it the same failure semantics as a thread slot. -/
def collect (cfg : MergeCfg) (inp : FetchInputs) : MergeInputs :=
  { devices_and_statuses := threadSlot [] inp.devicesCall id
    firewall_latencies := threadSlot [] inp.latencyCall id
    firewall_uplink_statuses := threadSlot [] inp.uplinksCall id
    vpn_statuses := if cfg.collectVpn then threadSlot [] inp.vpnCall id else []
    org_data := threadSlot {} inp.orgCall id
    switch_ports_usage := threadSlot [] inp.switchUsageCall get_switch_ports_usage
    port_statuses_map := threadSlotE [] inp.switchStatusCall get_switch_ports_status_map
    port_tags_map := threadSlot [] inp.switchTagsCall get_switch_ports_tags_map
    port_discovery_map := threadSlot [] inp.topologyCall get_switch_ports_topology_discovery
    devices_floor_info := threadSlot [] inp.floorCall get_floor_name_per_device
    ap_clients_info := threadSlot [] inp.clientsCall get_wireless_ap_clients
    ap_cpu_loads := threadSlot [] inp.cpuCall get_wireless_ap_cpu_load_history
    device_memory_usage := threadSlot [] inp.memoryCall get_device_memory_usage
    networks_map := threadSlot [] inp.networksCall mkNetworksMap }

/-- `get_usage` end to end: fetch phase (threads, joined) followed by
the single-threaded merge.  An `error` result models an exception
propagating out of `get_usage` and failing the scrape request. -/
def get_usage_model (cfg : MergeCfg) (inp : FetchInputs) : Except String EMap :=
  get_usage_merge cfg (collect cfg inp)

/-- The mapping produced by a successful merge (empty for an aborted
one); used to phrase claims about "the output mapping". -/
def outOf (r : Except String EMap) : EMap :=
  match r with
  | .ok m => m
  | .error _ => []

/-- The `switchPortUsage` entry of device `s` at `port_id`, if any. -/
def portUsageAt (m : EMap) (s port_id : String) : Option PortUsage :=
  match eget m s with
  | some e => aget (e.switchPortUsage.getD []) port_id
  | none => none

/-! ### Claim-side definitions (worded after the specification) -/

/-- The neighbor device type the discovery map records for
`(serial, port)`, if any. -/
def discTypeAt (dm : DiscMap) (s p : String) : Option String :=
  ((aget dm s).bind (fun pm => aget pm p)).bind (fun i => i.device_type)

/-- The neighbor device name the discovery map records for
`(serial, port)`, if any. -/
def discNameAt (dm : DiscMap) (s p : String) : Option String :=
  ((aget dm s).bind (fun pm => aget pm p)).bind (fun i => i.device_name)

/-- The tags the tag map records for `(serial, port)` (empty if none). -/
def tagsAt (tm : TagsMap) (s p : String) : List String :=
  ((aget tm s).bind (fun pm => aget pm p)).getD []

/-- The physical port status the status map reports for
`(serial, port)` (empty if none). -/
def statusAt (sm : StatusMap) (s p : String) : String :=
  ((aget sm s).bind (fun pm => aget pm p)).getD ""

/-- `classifyUplink` as the specification words it: an uplink when the
discovery map records a switch-class (`MS`) or security-appliance-class
(`MX`) neighbor, regardless of the other maps; otherwise an uplink
exactly when the port carries an `uplink` tag and the reported physical
status is `connected`. -/
def specClassifyUplink (tm : TagsMap) (dm : DiscMap) (sm : StatusMap)
    (s p : String) : Bool :=
  if discTypeAt dm s p == some "MS" || discTypeAt dm s p == some "MX" then
    true
  else
    (tagsAt tm s p).contains "uplink" &&
      (pyToLower (statusAt sm s p)) == "connected"

/-- The first device-type code (in the fixed iteration order) contained
in the upper-cased CDP platform string, if any. -/
def cdpStageFirstCode (cdp_list : List (String × String)) : Option String :=
  meraki_prefixes.find?
    (fun p =>
      containsSubstr (pyToUpper ((aget (parse_discovery_info cdp_list) "platform").getD "")) p)

/-- `classifyVendorNeighbor` as it actually behaves (the amended claim):
the CDP branch answers with the first matching code whenever the
platform string contains any device-type code — the vendor keyword is
not required there (the keyword-guarded rescan in the source is
unreachable); only the LLDP branch requires the vendor keyword. -/
def is_meraki_device_amended (cdp_list lldp_list : List (String × String)) :
    Bool × Option String × Option (List (String × String)) :=
  if !(parse_discovery_info cdp_list).isEmpty then
    match cdpStageFirstCode cdp_list with
    | some p => (true, some p, some (parse_discovery_info cdp_list))
    | none => lldpStage lldp_list
  else lldpStage lldp_list

/-! ### Concrete instances used by counterexamples and witnesses -/

/-- A collection cycle in which exactly the two "fatal" upstream calls
(switch-port usage and switch-port tags) raise. -/
def failInputs : FetchInputs :=
  { switchUsageCall := .error "API error", switchTagsCall := .error "API error" }

/-- A latency feed carrying two records for the same serial with
different most-recent samples. -/
def dupLatFeed : List LatencyRecord :=
  [ { serial := some "S", timeSeries := some [{ latencyMs := some 12, lossPercent := some 0 }] },
    { serial := some "S", timeSeries := some [{ latencyMs := some 20, lossPercent := some 1 }] } ]

/-- A switch-usage record carrying two port entries with the same port
id; only the second has interval data. -/
def dupPortDevice : UsageDevice :=
  { serial := some "SW",
    ports :=
      [ { portId := some "1", intervals := [] },
        { portId := some "1",
          intervals := [{ bandwidth := some { usage := some { total := some 7, upstream := some 3, downstream := some 4 } } }] } ] }

/-- A discovery map reporting a switch-class neighbor on port 1 of
switch `SW`. -/
def discSW : DiscMap := [("SW", [("1", { device_type := some "MS" })])]

/-- Example maps for witness instantiations: port 1 of `S` is tagged
`uplink` and reported `connected`. -/
def tagsS : TagsMap := [("S", [("1", ["uplink"])])]

/-- Status map for the witness instantiations. -/
def statS : StatusMap := [("S", [("1", "connected")])]

/-- Discovery map for the witness instantiations: port 2 of `S` has a
wireless-access-point neighbor. -/
def discS : DiscMap :=
  [("S", [("2", { device_type := some "MR", device_name := some "AP-12" })])]

/-- A topology-discovery feed record whose port 1 carries LLDP data for
a Meraki access point. -/
def topoFeedSW : TopoSwitch :=
  { serial := some "SW1",
    ports := [ { portId := some "1",
                 lldp := [("System Name", "Meraki MR33 - Office - AP1")] } ] }

/-- The most recent latency sample of the second `dupLatFeed` record. -/
def lastSampleS : TimeSample := { latencyMs := some 20, lossPercent := some 1 }

/-- The first (shadowed) record of `dupLatFeed`. -/
def firstRecS : LatencyRecord :=
  { serial := some "S",
    timeSeries := some [{ latencyMs := some 12, lossPercent := some 0 }] }

/-- The second (winning) record of `dupLatFeed`. -/
def lastRecS : LatencyRecord :=
  { serial := some "S", timeSeries := some [lastSampleS] }

/-- The entry the merge produces for serial `S` when fed `dupLatFeed`
with an empty inventory: a stub carrying the second record's sample. -/
def outEntryS : Entry :=
  { missing_data := true, latencyMs := some 20, lossPercent := some 1 }

/-- The port of `dupPortDevice` that carries no interval data. -/
def noIntPort : UsagePort := { portId := some "1", intervals := [] }

/-- The port of `dupPortDevice` that carries one interval sample. -/
def datPort : UsagePort :=
  { portId := some "1",
    intervals := [{ bandwidth := some { usage := some { total := some 7, upstream := some 3, downstream := some 4 } } }] }

/-- The port-usage record the merge builds for port 1 of `SW` when fed
`dupPortDevice` against `discSW`. -/
def outPortUsageSW : PortUsage :=
  { bandwidthTotalKbps := some 7, bandwidthUpstreamKbps := some 3,
    bandwidthDownstreamKbps := some 4 }

/-- The entry the merge produces for serial `SW` when fed
`dupPortDevice` against `discSW` with an empty inventory. -/
def outEntrySW : Entry :=
  { missing_data := true, switchPortUsage := some [("1", outPortUsageSW)] }

/-- A switch-usage device whose single port carries interval data. -/
def c7Dev : UsageDevice := { serial := some "SW", ports := [datPort] }

/-- Merge inputs feeding `c7Dev` against the `discSW` discovery map. -/
def c7Inp : MergeInputs :=
  { switch_ports_usage := [c7Dev], port_discovery_map := discSW }

/-! ## Theorems -/

/-! ### Dictionary lemmas -/

theorem aget_nil {α : Type} (k : String) : aget ([] : List (String × α)) k = none := rfl

theorem aget_cons {α : Type} (kv : String × α) (d : List (String × α)) (k : String) :
    aget (kv :: d) k = if kv.1 == k then some kv.2 else aget d k := by
  by_cases h : kv.1 == k <;> simp [aget, List.find?_cons, h]

theorem aget_aset_self {α : Type} (d : List (String × α)) (k : String) (v : α) :
    aget (aset d k v) k = some v := by
  induction d with
  | nil => simp [aset, aget_cons]
  | cons kv tl ih =>
    rw [aset]
    by_cases hb : kv.1 = k
    · simp [aget_cons, hb]
    · simp only [beq_iff_eq, hb, if_false]
      rw [aget_cons, if_neg (by simp [hb]), ih]

theorem aget_aset_ne {α : Type} (d : List (String × α)) (k k' : String) (v : α)
    (h : k' ≠ k) : aget (aset d k v) k' = aget d k' := by
  induction d with
  | nil => simp [aset, aget_cons, aget_nil, Ne.symm h]
  | cons kv tl ih =>
    rw [aset]
    by_cases hb : kv.1 = k
    · simp [aget_cons, hb, Ne.symm h]
    · simp only [beq_iff_eq, hb, if_false]
      rw [aget_cons, aget_cons, ih]

theorem aget_aset_isSome {α : Type} (d : List (String × α)) (k k' : String) (v : α) :
    (aget (aset d k v) k').isSome = (k' = k ∨ (aget d k').isSome = true) := by
  by_cases h : k' = k
  · subst h
    simp [aget_aset_self]
  · simp [aget_aset_ne _ _ _ _ h, h]

theorem eget_eupd_self (m : EMap) (s : String) (f : Entry → Entry) :
    eget (eupd m s f) s = (eget m s).map f := by
  induction m with
  | nil => rfl
  | cons kv tl ih =>
    rw [eupd]
    by_cases hb : kv.1 = s
    · simp [eget, aget_cons, hb]
    · simp only [beq_iff_eq, hb, if_false]
      unfold eget at *
      rw [aget_cons, aget_cons, if_neg (by simp [hb]), if_neg (by simp [hb]), ih]

theorem eget_eupd_ne (m : EMap) (s s' : String) (f : Entry → Entry)
    (h : s' ≠ s) : eget (eupd m s f) s' = eget m s' := by
  induction m with
  | nil => rfl
  | cons kv tl ih =>
    rw [eupd]
    by_cases hb : kv.1 = s
    · simp [eget, aget_cons, hb, Ne.symm h]
    · simp only [beq_iff_eq, hb, if_false]
      unfold eget at *
      rw [aget_cons, aget_cons, ih]

theorem eget_ensure_self (m : EMap) (s : String) :
    eget (ensureEntry m s) s = some ((eget m s).getD stubEntry) := by
  unfold ensureEntry
  cases h : eget m s with
  | some e => simp [h]
  | none => simp [h, eget, eset, aget_aset_self]

theorem eget_ensure_ne (m : EMap) (s s' : String) (h : s' ≠ s) :
    eget (ensureEntry m s) s' = eget m s' := by
  unfold ensureEntry
  cases hx : (eget m s).isSome
  · rw [if_neg (by simp)]
    exact aget_aset_ne _ _ _ _ h
  · simp

/-! ### Generic bridging lemmas -/

theorem beq_eq_decide_eq {α : Type} [DecidableEq α] [BEq α] [LawfulBEq α]
    (a b : α) : (a == b) = decide (a = b) := by
  by_cases h : a = b <;> simp [h]

theorem DiscInfo_getD_device_type (o : Option DiscInfo) :
    (o.getD {}).device_type = o.bind (fun i => i.device_type) := by
  cases o <;> rfl

theorem DiscInfo_getD_device_name (o : Option DiscInfo) :
    (o.getD {}).device_name = o.bind (fun i => i.device_name) := by
  cases o <;> rfl

/-! ### The classification checks against the claim-side lookups -/

theorem taggedUplinkCheck_eq (tm : TagsMap) (s p : String) (h : s ≠ "") :
    taggedUplinkCheck (some tm) (some s) p =
      (tagsAt tm s p).contains "uplink" := by
  simp only [taggedUplinkCheck, tagsAt]
  rw [if_pos h]
  cases htm : aget tm s <;> simp [htm]

theorem discoveredUplinkCheck_eq (dm : DiscMap) (s p : String) (h : s ≠ "") :
    discoveredUplinkCheck (some dm) (some s) p =
      (discTypeAt dm s p == some "MS" || discTypeAt dm s p == some "MX") := by
  simp only [discoveredUplinkCheck, discTypeAt]
  rw [if_pos h]
  cases hdm : aget dm s <;> simp [hdm, DiscInfo_getD_device_type]

theorem statusConnectedCheck_eq (sm : StatusMap) (s p : String) (h : s ≠ "") :
    statusConnectedCheck (some sm) (some s) p =
      (pyToLower (statusAt sm s p) == "connected") := by
  simp only [statusConnectedCheck, statusAt]
  rw [if_pos h]
  cases hsm : aget sm s
  · simp [hsm]
    decide
  · simp [hsm]

/-- C2: for every port id, non-empty serial, tag map, discovery map and
status map (the serial of a device record is non-empty by the data
model), `is_uplink_port` answers true exactly when the discovery map
records an `MS` (switch-class) or `MX` (security-appliance-class)
neighbor for that serial and port — regardless of the tag and status
maps — and otherwise exactly when the port carries an `uplink` tag and
the status map reports the port's physical status as `connected`
(matched case-insensitively, as the code lower-cases it); in every
other case it answers false.  `specClassifyUplink` is that
specification-side decision procedure. -/
theorem C2_thm (p s : String) (tm : TagsMap) (dm : DiscMap) (sm : StatusMap)
    (h : s ≠ "") :
    is_uplink_port p (some s) (some tm) (some dm) (some sm) =
      specClassifyUplink tm dm sm s p := by
  simp only [is_uplink_port, specClassifyUplink, Option.isSome_some,
    taggedUplinkCheck_eq tm s p h, discoveredUplinkCheck_eq dm s p h,
    statusConnectedCheck_eq sm s p h]
  cases hA : (discTypeAt dm s p == some "MS" || discTypeAt dm s p == some "MX") <;>
    simp [hA, beq_eq_decide_eq]

/-- Witness for C2 at concrete maps: port 1 of switch `S` is tagged
`uplink` and reported connected. -/
theorem C2_thm_witness :
    is_uplink_port "1" (some "S") (some tagsS) (some discS) (some statS) =
      specClassifyUplink tagsS discS statS "S" "1" :=
  C2_thm "1" "S" tagsS discS statS (by decide)

/-- C3 counterexample: the claim that the CDP branch answers only when
the platform string carries the vendor keyword `MERAKI` (together with
a device-type code) is false: for the CDP field list
`[("platform", "CISCO MS220")]` (and no LLDP data, so any positive
answer comes from the CDP branch) `is_meraki_device` answers positively
although the platform string does not contain the vendor keyword. -/
theorem C3_counterexample :
    ¬ (∀ cdp_list : List (String × String),
        (is_meraki_device cdp_list []).1 = true →
        containsSubstr
          (pyToUpper ((aget (parse_discovery_info cdp_list) "platform").getD ""))
          "MERAKI" = true) := by
  intro hclaim
  have h := hclaim [("platform", "CISCO MS220")] (by decide)
  exact absurd h (by decide)

/-- C3 (amended): `is_meraki_device` equals the characterization in
which the CDP branch returns the first device-type code (in the fixed
iteration order) contained in the upper-cased platform string —
without requiring the vendor keyword — and otherwise control falls to
the LLDP stage, which does require the keyword in the concatenated
upper-cased system name and description; CDP is inspected before LLDP,
and within each branch the first matching code in the fixed iteration
order wins. -/
theorem C3_thm (cdp_list lldp_list : List (String × String)) :
    is_meraki_device cdp_list lldp_list =
      is_meraki_device_amended cdp_list lldp_list := by
  unfold is_meraki_device is_meraki_device_amended cdpStageFirstCode
  cases he : (parse_discovery_info cdp_list).isEmpty
  · simp only [he, Bool.not_false, if_true]
    cases hf : meraki_prefixes.find? (fun p =>
        containsSubstr
          (pyToUpper ((aget (parse_discovery_info cdp_list) "platform").getD "")) p)
    · simp only [hf]
      cases hm : containsSubstr
          (pyToUpper ((aget (parse_discovery_info cdp_list) "platform").getD ""))
          "MERAKI" <;>
        simp [hm, hf]
    · simp [hf]
  · simp [he]

/-- C4: the switch-port-status fetcher does not normalize a bare
sequence: its item-list variable is assigned only in the envelope
branch, so a bare-list response (empty or not) raises `NameError`
instead of completing; the sibling tags fetcher handles the same shape
fine. -/
theorem C4_thm :
    get_switch_ports_status_map (ApiResponse.bare ([] : List StatusSwitch)) =
      .error "NameError: name switches_statuses is not defined" ∧
    get_switch_ports_status_map
        (ApiResponse.bare [({ serial := some "SW1" } : StatusSwitch)]) =
      .error "NameError: name switches_statuses is not defined" ∧
    get_switch_ports_tags_map (ApiResponse.bare ([] : List TagSwitch)) = [] :=
  ⟨rfl, rfl, rfl⟩

/-! ### C8: the CPU-load calculator -/

theorem roundHalfEven_intCast (n : ℤ) : roundHalfEven (n : ℚ) = n := by
  unfold roundHalfEven
  rw [Int.floor_intCast]
  norm_num

theorem pyRound2_hundred : pyRound2 100 = 100 := by
  have h : ((100 : ℚ) * 100) = ((10000 : ℤ) : ℚ) := by norm_num
  rw [pyRound2, h, roundHalfEven_intCast]
  norm_num

/-- C8: `cpu_load_calculator` returns 0 for a non-positive core count
(in particular for core count 0 at any sample); it equals 100 at the
clamp ceiling, in particular at `normalizeCpuLoad(4, 65536*4*1.5)`;
below the ceiling it scales linearly in the raw sample up to the final
two-decimal rounding; and it coincides everywhere with the formula
`round(min((raw/65536)/coreCount, 1.5)/1.5*100, 2)` stated by the
specification (`normalizeCpuLoadSpec`). -/
theorem C8_thm :
    (∀ (core_count : ℤ) (load_value : ℚ), core_count ≤ 0 →
        cpu_load_calculator core_count load_value = 0)
    ∧ (∀ load_value : ℚ, cpu_load_calculator 0 load_value = 0)
    ∧ cpu_load_calculator 4 (65536 * 4 * (3/2)) = 100
    ∧ (∀ (core_count : ℤ) (load_value : ℚ), 0 < core_count →
        load_value / 65536 / (core_count : ℚ) ≤ 3/2 →
        cpu_load_calculator core_count load_value =
          pyRound2 (load_value / 65536 / (core_count : ℚ) / (3/2) * 100))
    ∧ (∀ (core_count : ℤ) (load_value : ℚ), 0 < core_count →
        3/2 ≤ load_value / 65536 / (core_count : ℚ) →
        cpu_load_calculator core_count load_value = 100)
    ∧ (∀ (core_count : ℤ) (load_value : ℚ),
        cpu_load_calculator core_count load_value =
          normalizeCpuLoadSpec core_count load_value) := by
  have hclamp : ∀ (core_count : ℤ) (load_value : ℚ), 0 < core_count →
      3/2 ≤ load_value / 65536 / (core_count : ℚ) →
      cpu_load_calculator core_count load_value = 100 := by
    intro c v h1 h2
    simp only [cpu_load_calculator, if_neg (not_le.mpr h1), min_eq_right h2]
    have h : (3 / 2 : ℚ) / (3 / 2) * 100 = 100 := by norm_num
    rw [h, pyRound2_hundred]
  refine ⟨?_, ?_, ?_, ?_, hclamp, ?_⟩
  · intro c v h
    simp [cpu_load_calculator, h]
  · intro v
    simp [cpu_load_calculator]
  · apply hclamp 4 (65536 * 4 * (3/2)) (by norm_num)
    norm_num
  · intro c v h1 h2
    simp only [cpu_load_calculator, if_neg (not_le.mpr h1), min_eq_left h2]
  · intro c v
    unfold cpu_load_calculator normalizeCpuLoadSpec
    split <;> rfl

/-- Witness for C8 at concrete inputs: a negative core count yields 0,
and two cores at one scaling-factor unit fall in the linear regime. -/
theorem C8_thm_witness :
    cpu_load_calculator (-3) 999 = 0 ∧
    cpu_load_calculator 2 65536 =
      pyRound2 ((65536 : ℚ) / 65536 / ((2 : ℤ) : ℚ) / (3/2) * 100) :=
  ⟨C8_thm.1 (-3) 999 (by norm_num),
   C8_thm.2.2.2.1 2 65536 (by norm_num) (by norm_num)⟩

/-- C10: the merge phase is not total over latency-feed inputs: a
record with an empty `timeSeries`, a missing `serial`, or a missing
`timeSeries` key makes `get_usage_merge` raise (IndexError resp.
KeyError), aborting the whole collection instead of omitting the
fields. -/
theorem C10_thm :
    get_usage_merge {}
        { firewall_latencies := [{ serial := some "X", timeSeries := some [] }] } =
      .error "IndexError: list index out of range"
    ∧ get_usage_merge {} { firewall_latencies := [{ serial := none }] } =
      .error "KeyError: serial"
    ∧ get_usage_merge {} { firewall_latencies := [{ serial := some "X" }] } =
      .error "KeyError: timeSeries" :=
  ⟨rfl, rfl, rfl⟩

/-- C1 counterexample: the claim that a failing switch-port-usage fetch
makes the caller see an error for the whole scrape is false: with that
upstream call raising (`failInputs`) the collection still returns a
(here empty) mapping, because every fetcher runs on a thread whose
uncaught exception is swallowed at join. -/
theorem C1_counterexample :
    ¬ (∀ (cfg : MergeCfg) (inp : FetchInputs) (e : String),
        inp.switchUsageCall = .error e →
        ∃ msg, get_usage_model cfg inp = .error msg) := by
  intro hclaim
  obtain ⟨msg, hmsg⟩ := hclaim {} failInputs "API error" rfl
  have hok : get_usage_model {} failInputs = .ok [] := rfl
  rw [hok] at hmsg
  exact absurd hmsg (by simp)

/-- C1 (amended): when the switch-port-usage and switch-port-tags
upstream calls raise, the fetcher functions re-raise but the exceptions
stay confined to their worker threads; the collection proceeds exactly
as if those two feeds were empty — the same degradation every other
fetcher gets — rather than aborting the scrape. -/
theorem C1_thm (cfg : MergeCfg) (inp : FetchInputs) (e1 e2 : String)
    (h1 : inp.switchUsageCall = .error e1)
    (h2 : inp.switchTagsCall = .error e2) :
    get_usage_model cfg inp =
      get_usage_model cfg
        { inp with switchUsageCall := .ok (.bare []),
                   switchTagsCall := .ok (.bare []) } := by
  unfold get_usage_model collect
  rw [h1, h2]
  rfl

/-- Witness for C1 at the concrete failing cycle. -/
theorem C1_thm_witness :
    get_usage_model {} failInputs =
      get_usage_model {}
        { failInputs with switchUsageCall := .ok (.bare []),
                          switchTagsCall := .ok (.bare []) } :=
  C1_thm {} failInputs "API error" "API error" rfl rfl

/-- C9: for every port id, non-empty serial and discovery map,
`is_ap_device` answers true exactly when the discovery map records a
wireless-access-point-class (`MR`) neighbor for that serial and port,
and then returns the recorded neighbor name (defaulting to `N/A`);
`extract_device_name` derives that name as the substring after the last
`" - "` separator (`N/A` for an empty or `N/A` system name, the whole
name when no separator occurs), and the discovery-map builder feeds it
the parsed LLDP system name, as the end-to-end instance shows. -/
theorem C9_thm :
    (∀ (p s : String) (dm : DiscMap), s ≠ "" →
        ((is_ap_device p (some s) (some dm)).1 = true ↔
          discTypeAt dm s p = some "MR"))
    ∧ (∀ (p s : String) (dm : DiscMap), s ≠ "" →
        discTypeAt dm s p = some "MR" →
        (is_ap_device p (some s) (some dm)).2 =
          some ((discNameAt dm s p).getD "N/A"))
    ∧ extract_device_name "Office - Floor2 - AP-12" = "AP-12"
    ∧ extract_device_name "" = "N/A"
    ∧ extract_device_name "N/A" = "N/A"
    ∧ extract_device_name "plainname" = "plainname"
    ∧ is_ap_device "1" (some "SW1")
        (some (get_switch_ports_topology_discovery
          (ApiResponse.bare [topoFeedSW]))) =
      (true, some (extract_device_name "Meraki MR33 - Office - AP1")) := by
  refine ⟨?_, ?_, by decide, by decide, by decide, by decide, by decide⟩
  · intro p s dm h
    simp only [is_ap_device, discTypeAt]
    cases hemp : dm.isEmpty
    · rw [if_pos (by simp [hemp, h])]
      cases hdm : aget dm s
      · simp [hdm]
      · rename_i pm
        simp only [hdm, Option.some_bind]
        rw [← DiscInfo_getD_device_type]
        by_cases hx : ((aget pm p).getD {}).device_type = some "MR" <;>
          simp [hx, beq_iff_eq]
    · have hnil : dm = [] := List.isEmpty_iff.mp hemp
      subst hnil
      simp [aget_nil]
  · intro p s dm h hMR
    simp only [is_ap_device]
    unfold discTypeAt at hMR
    cases hemp : dm.isEmpty
    · rw [if_pos (by simp [hemp, h])]
      cases hdm : aget dm s
      · rw [hdm] at hMR
        simp at hMR
      · rename_i pm
        rw [hdm] at hMR
        simp only [Option.some_bind] at hMR
        rw [← DiscInfo_getD_device_type] at hMR
        simp only [hdm, Option.some_bind, discNameAt]
        rw [← DiscInfo_getD_device_name]
        simp [hMR]
    · have hnil : dm = [] := List.isEmpty_iff.mp hemp
      subst hnil
      simp [aget_nil] at hMR

/-- Witness for C9 at a concrete discovery map: port 2 of switch `S`
has an `MR` neighbor named `AP-12`. -/
theorem C9_thm_witness :
    ((is_ap_device "2" (some "S") (some discS)).1 = true ↔
      discTypeAt discS "S" "2" = some "MR") ∧
    (is_ap_device "2" (some "S") (some discS)).2 =
      some ((discNameAt discS "S" "2").getD "N/A") :=
  ⟨C9_thm.1 "2" "S" discS (by decide),
   C9_thm.2.1 "2" "S" discS (by decide) (by decide)⟩

/-! ### Generic machinery for the `Except`-valued merge passes -/

theorem except_bind_ok {α β : Type} (x : Except String α)
    (f : α → Except String β) (b : β) (h : x.bind f = .ok b) :
    ∃ a, x = .ok a ∧ f a = .ok b := by
  cases x with
  | error e => exact absurd h (by simp [Except.bind])
  | ok a => exact ⟨a, rfl, h⟩

theorem except_map_ok {α β : Type} (x : Except String α) (f : α → β) (b : β)
    (h : x.map f = .ok b) : ∃ a, x = .ok a ∧ f a = b := by
  cases x with
  | error e => exact absurd h (by simp [Except.map])
  | ok a =>
    refine ⟨a, rfl, ?_⟩
    simpa [Except.map] using h

theorem foldlM_ok_invariant {α : Type} (step : EMap → α → Except String EMap)
    (P : EMap → Prop) :
    ∀ (l : List α) (m m' : EMap), l.foldlM step m = .ok m' →
      (∀ m1 a m2, a ∈ l → step m1 a = .ok m2 → P m1 → P m2) →
      P m → P m' := by
  intro l
  induction l with
  | nil =>
    intro m m' h _ hP
    simp only [List.foldlM_nil] at h
    cases h
    exact hP
  | cons a tl ih =>
    intro m m' h hstep hP
    rw [List.foldlM_cons] at h
    cases hs : step m a with
    | error e =>
      rw [hs] at h
      exact absurd h (by simp [Bind.bind, Except.bind])
    | ok m1 =>
      rw [hs] at h
      simp only [Bind.bind, Except.bind] at h
      exact ih m1 m' h
        (fun ma aa mb haa => hstep ma aa mb (List.mem_cons_of_mem a haa))
        (hstep m a m1 (List.mem_cons_self a tl) hs hP)

/-! ### Characterization of the latency step -/

theorem latStep_other (m : EMap) (r : LatencyRecord) (m' : EMap)
    (h : latStep m r = .ok m') (s : String) (hs : r.serial ≠ some s) :
    eget m' s = eget m s := by
  unfold latStep at h
  cases hr : r.serial with
  | none =>
    simp only [hr] at h
    exact Except.noConfusion h
  | some s0 =>
    have hss : s ≠ s0 := fun he => hs (by rw [hr, he])
    cases ht : r.timeSeries with
    | none =>
      simp only [hr, ht] at h
      exact Except.noConfusion h
    | some ts =>
      cases hl : ts.getLast? with
      | none =>
        simp only [hr, ht, hl] at h
        exact Except.noConfusion h
      | some last =>
        cases hlat : last.latencyMs with
        | none =>
          simp only [hr, ht, hl, hlat] at h
          exact Except.noConfusion h
        | some lat =>
          cases hloss : last.lossPercent with
          | none =>
            simp only [hr, ht, hl, hlat, hloss] at h
            exact Except.noConfusion h
          | some loss =>
            simp only [hr, ht, hl, hlat, hloss, Except.ok.injEq] at h
            subst h
            rw [eget_eupd_ne _ _ _ _ hss, eget_ensure_ne _ _ _ hss]

theorem latStep_self (m : EMap) (r : LatencyRecord) (m' : EMap)
    (h : latStep m r = .ok m') (s : String) (hs : r.serial = some s) :
    ∃ e', eget m' s = some e'
      ∧ e'.missing_data = ((eget m s).getD stubEntry).missing_data
      ∧ e'.switchPortUsage = ((eget m s).getD stubEntry).switchPortUsage := by
  unfold latStep at h
  cases ht : r.timeSeries with
  | none =>
    simp only [hs, ht] at h
    exact Except.noConfusion h
  | some ts =>
    cases hl : ts.getLast? with
    | none =>
      simp only [hs, ht, hl] at h
      exact Except.noConfusion h
    | some last =>
      cases hlat : last.latencyMs with
      | none =>
        simp only [hs, ht, hl, hlat] at h
        exact Except.noConfusion h
      | some lat =>
        cases hloss : last.lossPercent with
        | none =>
          simp only [hs, ht, hl, hlat, hloss] at h
          exact Except.noConfusion h
        | some loss =>
          simp only [hs, ht, hl, hlat, hloss, Except.ok.injEq] at h
          subst h
          rw [eget_eupd_self, eget_ensure_self]
          exact ⟨_, rfl, rfl, rfl⟩

theorem latStep_values (m : EMap) (r : LatencyRecord) (m' : EMap)
    (h : latStep m r = .ok m') (s : String) (ts : List TimeSample)
    (last : TimeSample) (hs : r.serial = some s)
    (hts : r.timeSeries = some ts) (hl : ts.getLast? = some last) :
    ∃ e', eget m' s = some e' ∧ e'.latencyMs = last.latencyMs
      ∧ e'.lossPercent = last.lossPercent := by
  unfold latStep at h
  cases hlat : last.latencyMs with
  | none =>
    simp only [hs, hts, hl, hlat] at h
    exact Except.noConfusion h
  | some lat =>
    cases hloss : last.lossPercent with
    | none =>
      simp only [hs, hts, hl, hlat, hloss] at h
      exact Except.noConfusion h
    | some loss =>
      simp only [hs, hts, hl, hlat, hloss, Except.ok.injEq] at h
      subst h
      rw [eget_eupd_self, eget_ensure_self]
      refine ⟨_, rfl, ?_, ?_⟩ <;> simp [hlat, hloss]

/-! ### Characterization of the uplink step -/

theorem uplinkFoldStep_other (s0 : String) (m : EMap) (u : UplinkEntry)
    (m' : EMap) (h : uplinkFoldStep s0 m u = .ok m') (s : String)
    (hs : s ≠ s0) : eget m' s = eget m s := by
  unfold uplinkFoldStep at h
  cases hi : u.interface with
  | none =>
    simp only [hi] at h
    exact Except.noConfusion h
  | some itf =>
    cases hst : u.status with
    | none =>
      simp only [hi, hst] at h
      exact Except.noConfusion h
    | some st =>
      simp only [hi, hst, Except.ok.injEq] at h
      subst h
      exact eget_eupd_ne _ _ _ _ hs

theorem uplinkFoldStep_self (s0 : String) (m : EMap) (u : UplinkEntry)
    (m' : EMap) (h : uplinkFoldStep s0 m u = .ok m') (e : Entry)
    (he : eget m s0 = some e) :
    ∃ e', eget m' s0 = some e' ∧ e'.missing_data = e.missing_data
      ∧ e'.latencyMs = e.latencyMs ∧ e'.lossPercent = e.lossPercent
      ∧ e'.switchPortUsage = e.switchPortUsage := by
  unfold uplinkFoldStep at h
  cases hi : u.interface with
  | none =>
    simp only [hi] at h
    exact Except.noConfusion h
  | some itf =>
    cases hst : u.status with
    | none =>
      simp only [hi, hst] at h
      exact Except.noConfusion h
    | some st =>
      simp only [hi, hst, Except.ok.injEq] at h
      subst h
      rw [eget_eupd_self, he]
      exact ⟨_, rfl, rfl, rfl, rfl, rfl⟩

theorem uplinkStep_other (m : EMap) (r : UplinkRecord) (m' : EMap)
    (h : uplinkStep m r = .ok m') (s : String) (hs : r.serial ≠ some s) :
    eget m' s = eget m s := by
  unfold uplinkStep at h
  cases hr : r.serial with
  | none =>
    simp only [hr] at h
    exact Except.noConfusion h
  | some s0 =>
    have hss : s ≠ s0 := fun he => hs (by rw [hr, he])
    cases hu : r.uplinks with
    | none =>
      simp only [hr, hu] at h
      exact Except.noConfusion h
    | some ups =>
      simp only [hr, hu] at h
      refine foldlM_ok_invariant _ (fun m1 => eget m1 s = eget m s) ups _ m' h
        (fun m1 a m2 _ hstep hP => ?_) ?_
      · show eget m2 s = eget m s
        rw [uplinkFoldStep_other s0 m1 a m2 hstep s hss]
        exact hP
      · dsimp only
        rw [eget_eupd_ne _ _ _ _ hss, eget_ensure_ne _ _ _ hss]

theorem uplinkStep_self (m : EMap) (r : UplinkRecord) (m' : EMap)
    (h : uplinkStep m r = .ok m') (s : String) (hs : r.serial = some s) :
    ∃ e', eget m' s = some e'
      ∧ e'.missing_data = ((eget m s).getD stubEntry).missing_data
      ∧ e'.latencyMs = ((eget m s).getD stubEntry).latencyMs
      ∧ e'.lossPercent = ((eget m s).getD stubEntry).lossPercent
      ∧ e'.switchPortUsage = ((eget m s).getD stubEntry).switchPortUsage := by
  unfold uplinkStep at h
  cases hu : r.uplinks with
  | none =>
    simp only [hs, hu] at h
    exact Except.noConfusion h
  | some ups =>
    simp only [hs, hu] at h
    refine foldlM_ok_invariant _
      (fun m1 => ∃ e', eget m1 s = some e'
        ∧ e'.missing_data = ((eget m s).getD stubEntry).missing_data
        ∧ e'.latencyMs = ((eget m s).getD stubEntry).latencyMs
        ∧ e'.lossPercent = ((eget m s).getD stubEntry).lossPercent
        ∧ e'.switchPortUsage = ((eget m s).getD stubEntry).switchPortUsage)
      ups _ m' h (fun m1 a m2 _ hstep hP => ?_) ?_
    · obtain ⟨e1, he1, p1, p2, p3, p4⟩ := hP
      obtain ⟨e2, he2, q1, q2, q3, q4⟩ :=
        uplinkFoldStep_self s m1 a m2 hstep e1 he1
      exact ⟨e2, he2, q1.trans p1, q2.trans p2, q3.trans p3, q4.trans p4⟩
    · dsimp only
      rw [eget_eupd_self, eget_ensure_self]
      exact ⟨_, rfl, rfl, rfl, rfl, rfl⟩

/-! ### Characterization of the VPN step -/

theorem vpnStep_other (m : EMap) (v : VpnRecord) (m' : EMap)
    (h : vpnStep m v = .ok m') (s : String) (hs : v.deviceSerial ≠ some s) :
    eget m' s = eget m s := by
  unfold vpnStep at h
  cases hr : v.deviceSerial with
  | none =>
    simp only [hr] at h
    exact Except.noConfusion h
  | some s0 =>
    have hss : s ≠ s0 := fun he => hs (by rw [hr, he])
    cases hm : v.vpnMode with
    | none =>
      simp only [hr, hm] at h
      exact Except.noConfusion h
    | some mode =>
      cases hsub : v.exportedSubnets with
      | none =>
        simp only [hr, hm, hsub] at h
        exact Except.noConfusion h
      | some subnets =>
        cases hmap : subnets.mapM (fun sr => sr.subnet) with
        | none =>
          simp only [hr, hm, hsub, hmap] at h
          exact Except.noConfusion h
        | some subnet_list =>
          cases hmv : v.merakiVpnPeers with
          | none =>
            simp only [hr, hm, hsub, hmap, hmv] at h
            exact Except.noConfusion h
          | some mvp =>
            cases htv : v.thirdPartyVpnPeers with
            | none =>
              simp only [hr, hm, hsub, hmap, hmv, htv] at h
              exact Except.noConfusion h
            | some tvp =>
              simp only [hr, hm, hsub, hmap, hmv, htv, Except.ok.injEq] at h
              subst h
              rw [eget_eupd_ne _ _ _ _ hss, eget_eupd_ne _ _ _ _ hss,
                eget_ensure_ne _ _ _ hss]

theorem vpnStep_self (m : EMap) (v : VpnRecord) (m' : EMap)
    (h : vpnStep m v = .ok m') (s : String) (hs : v.deviceSerial = some s) :
    ∃ e', eget m' s = some e'
      ∧ e'.missing_data = ((eget m s).getD stubEntry).missing_data
      ∧ e'.latencyMs = ((eget m s).getD stubEntry).latencyMs
      ∧ e'.lossPercent = ((eget m s).getD stubEntry).lossPercent
      ∧ e'.switchPortUsage = ((eget m s).getD stubEntry).switchPortUsage := by
  unfold vpnStep at h
  cases hm : v.vpnMode with
  | none =>
    simp only [hs, hm] at h
    exact Except.noConfusion h
  | some mode =>
    cases hsub : v.exportedSubnets with
    | none =>
      simp only [hs, hm, hsub] at h
      exact Except.noConfusion h
    | some subnets =>
      cases hmap : subnets.mapM (fun sr => sr.subnet) with
      | none =>
        simp only [hs, hm, hsub, hmap] at h
        exact Except.noConfusion h
      | some subnet_list =>
        cases hmv : v.merakiVpnPeers with
        | none =>
          simp only [hs, hm, hsub, hmap, hmv] at h
          exact Except.noConfusion h
        | some mvp =>
          cases htv : v.thirdPartyVpnPeers with
          | none =>
            simp only [hs, hm, hsub, hmap, hmv, htv] at h
            exact Except.noConfusion h
          | some tvp =>
            simp only [hs, hm, hsub, hmap, hmv, htv, Except.ok.injEq] at h
            subst h
            rw [eget_eupd_self, eget_eupd_self, eget_ensure_self]
            exact ⟨_, rfl, rfl, rfl, rfl, rfl⟩

/-! ### Characterization of the per-port usage update -/

theorem portStep_other (cfg : MergeCfg) (tm : TagsMap) (dm : DiscMap)
    (sm : StatusMap) (s : String) (m : EMap) (port : UsagePort)
    (s' : String) (hs : s' ≠ s) :
    eget (portStep cfg tm dm sm s m port) s' = eget m s' := by
  unfold portStep
  cases hl : port.intervals.getLast? with
  | none => rfl
  | some latest =>
    dsimp only
    split
    · rfl
    · exact eget_eupd_ne _ _ _ _ hs

theorem portStep_self (cfg : MergeCfg) (tm : TagsMap) (dm : DiscMap)
    (sm : StatusMap) (s : String) (m : EMap) (port : UsagePort) (e : Entry)
    (he : eget m s = some e) :
    ∃ e', eget (portStep cfg tm dm sm s m port) s = some e'
      ∧ e'.missing_data = e.missing_data
      ∧ e'.latencyMs = e.latencyMs
      ∧ e'.lossPercent = e.lossPercent
      ∧ ∀ k, k ≠ port.portId.getD "" →
          aget (e'.switchPortUsage.getD []) k =
            aget (e.switchPortUsage.getD []) k := by
  unfold portStep
  cases hl : port.intervals.getLast? with
  | none => exact ⟨e, he, rfl, rfl, rfl, fun k hk => rfl⟩
  | some latest =>
    dsimp only
    split
    · exact ⟨e, he, rfl, rfl, rfl, fun k hk => rfl⟩
    · rw [eget_eupd_self, he]
      refine ⟨_, rfl, rfl, rfl, rfl, fun k hk => ?_⟩
      exact aget_aset_ne _ _ _ _ hk

theorem portStep_skip_nointervals (cfg : MergeCfg) (tm : TagsMap)
    (dm : DiscMap) (sm : StatusMap) (s : String) (m : EMap)
    (port : UsagePort) (hl : port.intervals.getLast? = none) :
    portStep cfg tm dm sm s m port = m := by
  unfold portStep
  rw [hl]

theorem portStep_skip_notkept (cfg : MergeCfg) (tm : TagsMap) (dm : DiscMap)
    (sm : StatusMap) (s : String) (m : EMap) (port : UsagePort)
    (latest : UsageInterval) (hl : port.intervals.getLast? = some latest)
    (hcond : (!(is_uplink_port (port.portId.getD "") (some s) (some tm)
        (some dm) (some sm))
      && !(is_ap_device (port.portId.getD "") (some s) (some dm)).1) = true) :
    portStep cfg tm dm sm s m port = m := by
  unfold portStep
  rw [hl]
  dsimp only
  rw [if_pos hcond]

theorem portStep_kept (cfg : MergeCfg) (tm : TagsMap) (dm : DiscMap)
    (sm : StatusMap) (s : String) (m : EMap) (port : UsagePort) (e : Entry)
    (he : eget m s = some e) (latest : UsageInterval)
    (hl : port.intervals.getLast? = some latest)
    (hcond : (!(is_uplink_port (port.portId.getD "") (some s) (some tm)
        (some dm) (some sm))
      && !(is_ap_device (port.portId.getD "") (some s) (some dm)).1) = false) :
    ∃ e', eget (portStep cfg tm dm sm s m port) s = some e'
      ∧ e'.switchPortUsage = some (aset (e.switchPortUsage.getD [])
          (port.portId.getD "")
          (builtPortUsage cfg latest
            (is_ap_device (port.portId.getD "") (some s) (some dm))
            ((aget (e.switchPortUsage.getD []) (port.portId.getD "")).getD {}))) := by
  unfold portStep
  rw [hl]
  dsimp only
  rw [if_neg (by rw [hcond]; exact Bool.false_ne_true)]
  rw [eget_eupd_self, he]
  exact ⟨_, rfl, rfl⟩

/-! ### The per-device port loop of the usage pass -/

theorem portsFold_other (cfg : MergeCfg) (tm : TagsMap) (dm : DiscMap)
    (sm : StatusMap) (s : String) (ports : List UsagePort) :
    ∀ (m : EMap) (s' : String), s' ≠ s →
      eget (ports.foldl (portStep cfg tm dm sm s) m) s' = eget m s' := by
  induction ports with
  | nil => intro m s' _; rfl
  | cons q tl ih =>
    intro m s' hs
    rw [List.foldl_cons, ih _ s' hs, portStep_other cfg tm dm sm s m q s' hs]

theorem portsFold_self (cfg : MergeCfg) (tm : TagsMap) (dm : DiscMap)
    (sm : StatusMap) (s : String) (ports : List UsagePort) :
    ∀ (m : EMap) (e : Entry), eget m s = some e →
      ∃ e', eget (ports.foldl (portStep cfg tm dm sm s) m) s = some e'
        ∧ e'.missing_data = e.missing_data
        ∧ e'.latencyMs = e.latencyMs
        ∧ e'.lossPercent = e.lossPercent := by
  induction ports with
  | nil => intro m e he; exact ⟨e, he, rfl, rfl, rfl⟩
  | cons q tl ih =>
    intro m e he
    obtain ⟨e1, he1, p1, p2, p3, _⟩ :=
      portStep_self cfg tm dm sm s m q e he
    obtain ⟨e2, he2, q1, q2, q3⟩ := ih _ e1 he1
    exact ⟨e2, by rw [List.foldl_cons]; exact he2,
      q1.trans p1, q2.trans p2, q3.trans p3⟩

theorem portsFold_pid_untouched (cfg : MergeCfg) (tm : TagsMap) (dm : DiscMap)
    (sm : StatusMap) (s pid : String) (ports : List UsagePort)
    (hq : ∀ q ∈ ports, q.portId.getD "" ≠ pid) :
    ∀ (m : EMap) (e : Entry), eget m s = some e →
      ∃ e', eget (ports.foldl (portStep cfg tm dm sm s) m) s = some e'
        ∧ aget (e'.switchPortUsage.getD []) pid =
            aget (e.switchPortUsage.getD []) pid := by
  induction ports with
  | nil => intro m e he; exact ⟨e, he, rfl⟩
  | cons q tl ih =>
    intro m e he
    obtain ⟨e1, he1, _, _, _, hkeys⟩ :=
      portStep_self cfg tm dm sm s m q e he
    have hpid : pid ≠ q.portId.getD "" :=
      fun hh => hq q (List.mem_cons_self q tl) hh.symm
    obtain ⟨e2, he2, hval⟩ :=
      ih (fun x hx => hq x (List.mem_cons_of_mem q hx)) _ e1 he1
    refine ⟨e2, by rw [List.foldl_cons]; exact he2, ?_⟩
    rw [hval, hkeys pid hpid]

theorem usageStep_other (cfg : MergeCfg) (tm : TagsMap) (dm : DiscMap)
    (sm : StatusMap) (m : EMap) (d : UsageDevice) (m' : EMap)
    (h : usageStep cfg tm dm sm m d = .ok m') (s : String)
    (hs : d.serial ≠ some s) : eget m' s = eget m s := by
  unfold usageStep at h
  cases hr : d.serial with
  | none =>
    simp only [hr] at h
    exact Except.noConfusion h
  | some s0 =>
    have hss : s ≠ s0 := fun he => hs (by rw [hr, he])
    simp only [hr, Except.ok.injEq] at h
    subst h
    rw [portsFold_other cfg tm dm sm s0 d.ports _ s hss,
      eget_ensure_ne _ _ _ hss]

theorem usageStep_self (cfg : MergeCfg) (tm : TagsMap) (dm : DiscMap)
    (sm : StatusMap) (m : EMap) (d : UsageDevice) (m' : EMap)
    (h : usageStep cfg tm dm sm m d = .ok m') (s : String)
    (hs : d.serial = some s) :
    ∃ e', eget m' s = some e'
      ∧ e'.missing_data = ((eget m s).getD stubEntry).missing_data
      ∧ e'.latencyMs = ((eget m s).getD stubEntry).latencyMs
      ∧ e'.lossPercent = ((eget m s).getD stubEntry).lossPercent := by
  unfold usageStep at h
  simp only [hs, Except.ok.injEq] at h
  subst h
  exact portsFold_self cfg tm dm sm s d.ports _ _ (eget_ensure_self m s)

theorem usageStep_pid (cfg : MergeCfg) (tm : TagsMap) (dm : DiscMap)
    (sm : StatusMap) (m : EMap) (d : UsageDevice) (m' : EMap)
    (h : usageStep cfg tm dm sm m d = .ok m') (s : String)
    (hs : d.serial = some s) (q1 q2 : List UsagePort) (p : UsagePort)
    (pid : String) (hports : d.ports = q1 ++ p :: q2)
    (hpid : p.portId.getD "" = pid)
    (hq1 : ∀ q ∈ q1, q.portId.getD "" ≠ pid)
    (hq2 : ∀ q ∈ q2, q.portId.getD "" ≠ pid) :
    ∃ e', eget m' s = some e'
      ∧ aget (e'.switchPortUsage.getD []) pid =
        (match p.intervals.getLast? with
         | none =>
           aget ((((eget m s).getD stubEntry).switchPortUsage).getD []) pid
         | some latest =>
           if (!(is_uplink_port pid (some s) (some tm) (some dm) (some sm))
               && !(is_ap_device pid (some s) (some dm)).1) = true then
             aget ((((eget m s).getD stubEntry).switchPortUsage).getD []) pid
           else
             some (builtPortUsage cfg latest
               (is_ap_device pid (some s) (some dm))
               ((aget ((((eget m s).getD stubEntry).switchPortUsage).getD [])
                 pid).getD {}))) := by
  unfold usageStep at h
  simp only [hs, Except.ok.injEq] at h
  subst h
  rw [hports, List.foldl_append, List.foldl_cons]
  obtain ⟨e1, he1, hv1⟩ :=
    portsFold_pid_untouched cfg tm dm sm s pid q1 hq1 _ _
      (eget_ensure_self m s)
  cases hl : p.intervals.getLast? with
  | none =>
    rw [portStep_skip_nointervals cfg tm dm sm s _ p hl]
    obtain ⟨e2, he2, hv2⟩ := portsFold_pid_untouched cfg tm dm sm s pid q2 hq2 _ _ he1
    exact ⟨e2, he2, by rw [hv2, hv1]⟩
  | some latest =>
    cases hcond : (!(is_uplink_port (p.portId.getD "") (some s) (some tm)
        (some dm) (some sm))
      && !(is_ap_device (p.portId.getD "") (some s) (some dm)).1) with
    | true =>
      rw [portStep_skip_notkept cfg tm dm sm s _ p latest hl hcond]
      obtain ⟨e2, he2, hv2⟩ :=
        portsFold_pid_untouched cfg tm dm sm s pid q2 hq2 _ _ he1
      rw [hpid] at hcond
      simp only [hcond, if_pos]
      exact ⟨e2, he2, by rw [hv2, hv1]⟩
    | false =>
      obtain ⟨e1k, he1k, hspu⟩ :=
        portStep_kept cfg tm dm sm s _ p e1 he1 latest hl hcond
      obtain ⟨e2, he2, hv2⟩ :=
        portsFold_pid_untouched cfg tm dm sm s pid q2 hq2 _ _ he1k
      rw [hpid] at hcond
      simp only [hcond]
      rw [if_neg (by exact Bool.false_ne_true)]
      refine ⟨e2, he2, ?_⟩
      rw [hv2, hspu, Option.getD_some, hpid, aget_aset_self, hv1]

/-! ### Seeding-pass lemmas -/

theorem eget_eset_self (m : EMap) (s : String) (e : Entry) :
    eget (eset m s e) s = some e := aget_aset_self m s e

theorem eget_eset_ne (m : EMap) (s s' : String) (e : Entry) (h : s' ≠ s) :
    eget (eset m s e) s' = eget m s' := aget_aset_ne m s s' e h

theorem seedPass_absent (org : OrgData) (nm : NetworksMap)
    (fi : List (String × String)) (s : String)
    (devices : List RawDevice) (h : ∀ d ∈ devices, d.serial ≠ some s) :
    eget (seedPass org nm fi devices) s = none := by
  unfold seedPass
  have haux : ∀ (l : List RawDevice) (m : EMap),
      (∀ d ∈ l, d.serial ≠ some s) → eget m s = none →
      eget (l.foldl (fun the_list device =>
        match device.serial with
        | some serial =>
          if serial ≠ "" then
            eset the_list serial (mkSeedEntry org nm fi serial device)
          else the_list
        | none => the_list) m) s = none := by
    intro l
    induction l with
    | nil => intro m _ hm; exact hm
    | cons d tl ih =>
      intro m hl hm
      rw [List.foldl_cons]
      refine ih _ (fun x hx => hl x (List.mem_cons_of_mem d hx)) ?_
      cases hd : d.serial with
      | none => exact hm
      | some s0 =>
        have hs0 : s ≠ s0 := by
          intro he
          exact hl d (List.mem_cons_self d tl) (by rw [hd, he])
        dsimp only
        split
        · rw [eget_eset_ne _ _ _ _ hs0]
          exact hm
        · exact hm
  exact haux devices [] h rfl

theorem seedPass_spu_none (org : OrgData) (nm : NetworksMap)
    (fi : List (String × String)) (s : String)
    (devices : List RawDevice) :
    ∀ e, eget (seedPass org nm fi devices) s = some e →
      e.switchPortUsage = none := by
  unfold seedPass
  have haux : ∀ (l : List RawDevice) (m : EMap),
      (∀ e, eget m s = some e → e.switchPortUsage = none) →
      ∀ e, eget (l.foldl (fun the_list device =>
        match device.serial with
        | some serial =>
          if serial ≠ "" then
            eset the_list serial (mkSeedEntry org nm fi serial device)
          else the_list
        | none => the_list) m) s = some e → e.switchPortUsage = none := by
    intro l
    induction l with
    | nil => intro m hm; exact hm
    | cons d tl ih =>
      intro m hm
      rw [List.foldl_cons]
      refine ih _ ?_
      intro e he
      cases hd : d.serial with
      | none => exact hm e (by rw [hd] at he; exact he)
      | some s0 =>
        rw [hd] at he
        dsimp only at he
        by_cases hs0 : s = s0
        · subst hs0
          split at he
          · rw [eget_eset_self] at he
            cases he
            rfl
          · exact hm e he
        · split at he
          · rw [eget_eset_ne _ _ _ _ hs0] at he
            exact hm e he
          · exact hm e he
  intro e he
  exact haux devices [] (fun e h => absurd h (by simp [eget, aget])) e he

/-! ### Wireless-pass lemmas (passes 6-8 update only existing entries) -/

theorem clientsPass_pres (l : List (String × ℕ)) :
    ∀ (m : EMap) (s : String),
      (eget m s = none → eget (clientsPass m l) s = none) ∧
      (∀ e, eget m s = some e → ∃ e', eget (clientsPass m l) s = some e'
        ∧ e'.missing_data = e.missing_data
        ∧ e'.latencyMs = e.latencyMs
        ∧ e'.lossPercent = e.lossPercent
        ∧ e'.switchPortUsage = e.switchPortUsage) := by
  induction l with
  | nil =>
    intro m s
    exact ⟨fun h => h, fun e he => ⟨e, he, rfl, rfl, rfl, rfl⟩⟩
  | cons kv tl ih =>
    intro m s
    unfold clientsPass at *
    rw [List.foldl_cons]
    constructor
    · intro hnone
      refine (ih _ s).1 ?_
      try dsimp only
      split
      · by_cases hks : kv.1 = s
        · subst hks
          rw [eget_eupd_self, hnone]
          rfl
        · rw [eget_eupd_ne _ _ _ _ (fun he => hks he.symm)]
          exact hnone
      · exact hnone
    · intro e he
      by_cases hks : kv.1 = s
      · subst hks
        try dsimp only
        split
        · have hx : eget (eupd m kv.1
              (fun e => { e with wirelessClientCount := some kv.2 })) kv.1 =
              some { e with wirelessClientCount := some kv.2 } := by
            rw [eget_eupd_self, he]
            rfl
          obtain ⟨e2, he2, p1, p2, p3, p4⟩ := (ih _ kv.1).2 _ hx
          exact ⟨e2, he2, p1, p2, p3, p4⟩
        · exact (ih _ kv.1).2 e he
      · dsimp only
        split
        · exact (ih _ s).2 e
            (by rw [eget_eupd_ne _ _ _ _ (fun hx => hks hx.symm)]; exact he)
        · exact (ih _ s).2 e he

theorem cpuPass_pres (l : List (String × ℚ)) :
    ∀ (m : EMap) (s : String),
      (eget m s = none → eget (cpuPass m l) s = none) ∧
      (∀ e, eget m s = some e → ∃ e', eget (cpuPass m l) s = some e'
        ∧ e'.missing_data = e.missing_data
        ∧ e'.latencyMs = e.latencyMs
        ∧ e'.lossPercent = e.lossPercent
        ∧ e'.switchPortUsage = e.switchPortUsage) := by
  induction l with
  | nil =>
    intro m s
    exact ⟨fun h => h, fun e he => ⟨e, he, rfl, rfl, rfl, rfl⟩⟩
  | cons kv tl ih =>
    intro m s
    unfold cpuPass at *
    rw [List.foldl_cons]
    constructor
    · intro hnone
      refine (ih _ s).1 ?_
      try dsimp only
      split
      · by_cases hks : kv.1 = s
        · subst hks
          rw [eget_eupd_self, hnone]
          rfl
        · rw [eget_eupd_ne _ _ _ _ (fun he => hks he.symm)]
          exact hnone
      · exact hnone
    · intro e he
      by_cases hks : kv.1 = s
      · subst hks
        try dsimp only
        split
        · have hx : eget (eupd m kv.1
              (fun e => { e with wirelessApCpuLoadPercent := some kv.2 })) kv.1 =
              some { e with wirelessApCpuLoadPercent := some kv.2 } := by
            rw [eget_eupd_self, he]
            rfl
          obtain ⟨e2, he2, p1, p2, p3, p4⟩ := (ih _ kv.1).2 _ hx
          exact ⟨e2, he2, p1, p2, p3, p4⟩
        · exact (ih _ kv.1).2 e he
      · dsimp only
        split
        · exact (ih _ s).2 e
            (by rw [eget_eupd_ne _ _ _ _ (fun hx => hks hx.symm)]; exact he)
        · exact (ih _ s).2 e he

theorem memPass_pres (l : List (String × ℚ)) :
    ∀ (m : EMap) (s : String),
      (eget m s = none → eget (memPass m l) s = none) ∧
      (∀ e, eget m s = some e → ∃ e', eget (memPass m l) s = some e'
        ∧ e'.missing_data = e.missing_data
        ∧ e'.latencyMs = e.latencyMs
        ∧ e'.lossPercent = e.lossPercent
        ∧ e'.switchPortUsage = e.switchPortUsage) := by
  induction l with
  | nil =>
    intro m s
    exact ⟨fun h => h, fun e he => ⟨e, he, rfl, rfl, rfl, rfl⟩⟩
  | cons kv tl ih =>
    intro m s
    unfold memPass at *
    rw [List.foldl_cons]
    constructor
    · intro hnone
      refine (ih _ s).1 ?_
      try dsimp only
      split
      · by_cases hks : kv.1 = s
        · subst hks
          rw [eget_eupd_self, hnone]
          rfl
        · rw [eget_eupd_ne _ _ _ _ (fun he => hks he.symm)]
          exact hnone
      · exact hnone
    · intro e he
      by_cases hks : kv.1 = s
      · subst hks
        try dsimp only
        split
        · have hx : eget (eupd m kv.1
              (fun e => { e with memoryUsedPercent := some kv.2 })) kv.1 =
              some { e with memoryUsedPercent := some kv.2 } := by
            rw [eget_eupd_self, he]
            rfl
          obtain ⟨e2, he2, p1, p2, p3, p4⟩ := (ih _ kv.1).2 _ hx
          exact ⟨e2, he2, p1, p2, p3, p4⟩
        · exact (ih _ kv.1).2 e he
      · dsimp only
        split
        · exact (ih _ s).2 e
            (by rw [eget_eupd_ne _ _ _ _ (fun hx => hks hx.symm)]; exact he)
        · exact (ih _ s).2 e he

/-! ### Pass-level lemmas -/

theorem except_bindM_ok {α β : Type} (x : Except String α)
    (f : α → Except String β) (b : β) (h : x >>= f = .ok b) :
    ∃ a, x = .ok a ∧ f a = .ok b := except_bind_ok x f b h

theorem merge_decompose (cfg : MergeCfg) (inp : MergeInputs) (out : EMap)
    (h : get_usage_merge cfg inp = .ok out) :
    ∃ m1 m2 m3 m4,
      latPass (seedPass inp.org_data inp.networks_map inp.devices_floor_info
          inp.devices_and_statuses) inp.firewall_latencies = .ok m1
      ∧ uplinkPass m1 inp.firewall_uplink_statuses = .ok m2
      ∧ vpnPass cfg m2 inp.vpn_statuses = .ok m3
      ∧ usagePass cfg inp.port_tags_map inp.port_discovery_map
          inp.port_statuses_map m3 inp.switch_ports_usage = .ok m4
      ∧ out = memPass (cpuPass (clientsPass m4 inp.ap_clients_info)
          inp.ap_cpu_loads) inp.device_memory_usage := by
  unfold get_usage_merge at h
  obtain ⟨m1, h1, h⟩ := except_bind_ok _ _ _ h
  obtain ⟨m2, h2, h⟩ := except_bind_ok _ _ _ h
  obtain ⟨m3, h3, h⟩ := except_bind_ok _ _ _ h
  obtain ⟨m4, h4, h5⟩ := except_map_ok _ _ _ h
  exact ⟨m1, m2, m3, m4, h1, h2, h3, h4, h5.symm⟩

theorem latPass_flag (m : EMap) (lats : List LatencyRecord) (m' : EMap)
    (h : latPass m lats = .ok m') (s : String)
    (hm : ∀ e, eget m s = some e → e.missing_data = true) :
    ∀ e, eget m' s = some e → e.missing_data = true := by
  refine foldlM_ok_invariant latStep
    (fun m1 => ∀ e, eget m1 s = some e → e.missing_data = true) lats m m' h
    (fun m1 r m2 _ hst hP => ?_) hm
  by_cases hr : r.serial = some s
  · obtain ⟨e', he', hflag, _⟩ := latStep_self m1 r m2 hst s hr
    intro e he
    rw [he'] at he
    cases he
    rw [hflag]
    cases hx : eget m1 s with
    | none => rfl
    | some e1 => exact hP e1 hx
  · intro e he
    rw [latStep_other m1 r m2 hst s hr] at he
    exact hP e he

theorem latPass_isSome (m : EMap) (lats : List LatencyRecord) (m' : EMap)
    (h : latPass m lats = .ok m') (s : String)
    (hm : (eget m s).isSome = true) : (eget m' s).isSome = true := by
  refine foldlM_ok_invariant latStep
    (fun m1 => (eget m1 s).isSome = true) lats m m' h
    (fun m1 r m2 _ hst hP => ?_) hm
  show (eget m2 s).isSome = true
  by_cases hr : r.serial = some s
  · obtain ⟨e', he', _, _⟩ := latStep_self m1 r m2 hst s hr
    rw [he']
    rfl
  · rw [latStep_other m1 r m2 hst s hr]
    exact hP

theorem latPass_establish (m : EMap) (lats : List LatencyRecord) (m' : EMap)
    (h : latPass m lats = .ok m') (s : String)
    (hex : ∃ r ∈ lats, r.serial = some s) : (eget m' s).isSome = true := by
  obtain ⟨r, hr, hrs⟩ := hex
  obtain ⟨l1, l2, rfl⟩ := List.append_of_mem hr
  unfold latPass at h
  rw [List.foldlM_append] at h
  obtain ⟨ma, _, h⟩ := except_bindM_ok _ _ _ h
  rw [List.foldlM_cons] at h
  obtain ⟨mb, hb, h⟩ := except_bindM_ok _ _ _ h
  obtain ⟨e', he', _, _⟩ := latStep_self ma r mb hb s hrs
  exact latPass_isSome mb l2 m' h s (by rw [he']; rfl)

theorem latPass_spuNone (m : EMap) (lats : List LatencyRecord) (m' : EMap)
    (h : latPass m lats = .ok m') (s : String)
    (hm : ∀ e, eget m s = some e → e.switchPortUsage = none) :
    ∀ e, eget m' s = some e → e.switchPortUsage = none := by
  refine foldlM_ok_invariant latStep
    (fun m1 => ∀ e, eget m1 s = some e → e.switchPortUsage = none) lats m m' h
    (fun m1 r m2 _ hst hP => ?_) hm
  by_cases hr : r.serial = some s
  · obtain ⟨e', he', _, hspu⟩ := latStep_self m1 r m2 hst s hr
    intro e he
    rw [he'] at he
    cases he
    rw [hspu]
    cases hx : eget m1 s with
    | none => rfl
    | some e1 => exact hP e1 hx
  · intro e he
    rw [latStep_other m1 r m2 hst s hr] at he
    exact hP e he

theorem latPass_untouched (m : EMap) (lats : List LatencyRecord) (m' : EMap)
    (h : latPass m lats = .ok m') (s : String)
    (hno : ∀ r ∈ lats, r.serial ≠ some s) : eget m' s = eget m s := by
  refine foldlM_ok_invariant latStep
    (fun m1 => eget m1 s = eget m s) lats m m' h
    (fun m1 r m2 hmem hst hP => ?_) rfl
  show eget m2 s = eget m s
  rw [latStep_other m1 r m2 hst s (hno r hmem)]
  exact hP

theorem uplinkPass_flag (m : EMap) (ups : List UplinkRecord) (m' : EMap)
    (h : uplinkPass m ups = .ok m') (s : String)
    (hm : ∀ e, eget m s = some e → e.missing_data = true) :
    ∀ e, eget m' s = some e → e.missing_data = true := by
  refine foldlM_ok_invariant uplinkStep
    (fun m1 => ∀ e, eget m1 s = some e → e.missing_data = true) ups m m' h
    (fun m1 r m2 _ hst hP => ?_) hm
  by_cases hr : r.serial = some s
  · obtain ⟨e', he', hflag, _, _, _⟩ := uplinkStep_self m1 r m2 hst s hr
    intro e he
    rw [he'] at he
    cases he
    rw [hflag]
    cases hx : eget m1 s with
    | none => rfl
    | some e1 => exact hP e1 hx
  · intro e he
    rw [uplinkStep_other m1 r m2 hst s hr] at he
    exact hP e he

theorem uplinkPass_isSome (m : EMap) (ups : List UplinkRecord) (m' : EMap)
    (h : uplinkPass m ups = .ok m') (s : String)
    (hm : (eget m s).isSome = true) : (eget m' s).isSome = true := by
  refine foldlM_ok_invariant uplinkStep
    (fun m1 => (eget m1 s).isSome = true) ups m m' h
    (fun m1 r m2 _ hst hP => ?_) hm
  show (eget m2 s).isSome = true
  by_cases hr : r.serial = some s
  · obtain ⟨e', he', _, _, _, _⟩ := uplinkStep_self m1 r m2 hst s hr
    rw [he']
    rfl
  · rw [uplinkStep_other m1 r m2 hst s hr]
    exact hP

theorem uplinkPass_establish (m : EMap) (ups : List UplinkRecord) (m' : EMap)
    (h : uplinkPass m ups = .ok m') (s : String)
    (hex : ∃ r ∈ ups, r.serial = some s) : (eget m' s).isSome = true := by
  obtain ⟨r, hr, hrs⟩ := hex
  obtain ⟨l1, l2, rfl⟩ := List.append_of_mem hr
  unfold uplinkPass at h
  rw [List.foldlM_append] at h
  obtain ⟨ma, _, h⟩ := except_bindM_ok _ _ _ h
  rw [List.foldlM_cons] at h
  obtain ⟨mb, hb, h⟩ := except_bindM_ok _ _ _ h
  obtain ⟨e', he', _, _, _, _⟩ := uplinkStep_self ma r mb hb s hrs
  exact uplinkPass_isSome mb l2 m' h s (by rw [he']; rfl)

theorem uplinkPass_spuNone (m : EMap) (ups : List UplinkRecord) (m' : EMap)
    (h : uplinkPass m ups = .ok m') (s : String)
    (hm : ∀ e, eget m s = some e → e.switchPortUsage = none) :
    ∀ e, eget m' s = some e → e.switchPortUsage = none := by
  refine foldlM_ok_invariant uplinkStep
    (fun m1 => ∀ e, eget m1 s = some e → e.switchPortUsage = none) ups m m' h
    (fun m1 r m2 _ hst hP => ?_) hm
  by_cases hr : r.serial = some s
  · obtain ⟨e', he', _, _, _, hspu⟩ := uplinkStep_self m1 r m2 hst s hr
    intro e he
    rw [he'] at he
    cases he
    rw [hspu]
    cases hx : eget m1 s with
    | none => rfl
    | some e1 => exact hP e1 hx
  · intro e he
    rw [uplinkStep_other m1 r m2 hst s hr] at he
    exact hP e he

theorem uplinkPass_vals (m : EMap) (ups : List UplinkRecord) (m' : EMap)
    (h : uplinkPass m ups = .ok m') (s : String) (v w : Option ℚ)
    (hm : ∃ e, eget m s = some e ∧ e.latencyMs = v ∧ e.lossPercent = w) :
    ∃ e, eget m' s = some e ∧ e.latencyMs = v ∧ e.lossPercent = w := by
  refine foldlM_ok_invariant uplinkStep
    (fun m1 => ∃ e, eget m1 s = some e ∧ e.latencyMs = v ∧ e.lossPercent = w)
    ups m m' h (fun m1 r m2 _ hst hP => ?_) hm
  obtain ⟨e, he, hv, hw⟩ := hP
  by_cases hr : r.serial = some s
  · obtain ⟨e', he', _, hlat, hloss, _⟩ := uplinkStep_self m1 r m2 hst s hr
    refine ⟨e', he', ?_, ?_⟩
    · rw [hlat, he]
      exact hv
    · rw [hloss, he]
      exact hw
  · refine ⟨e, ?_, hv, hw⟩
    rw [uplinkStep_other m1 r m2 hst s hr]
    exact he

theorem uplinkPass_untouched (m : EMap) (ups : List UplinkRecord) (m' : EMap)
    (h : uplinkPass m ups = .ok m') (s : String)
    (hno : ∀ r ∈ ups, r.serial ≠ some s) : eget m' s = eget m s := by
  refine foldlM_ok_invariant uplinkStep
    (fun m1 => eget m1 s = eget m s) ups m m' h
    (fun m1 r m2 hmem hst hP => ?_) rfl
  show eget m2 s = eget m s
  rw [uplinkStep_other m1 r m2 hst s (hno r hmem)]
  exact hP

theorem vpnFold_flag (m : EMap) (vs : List VpnRecord) (m' : EMap)
    (h : vs.foldlM vpnStep m = .ok m') (s : String)
    (hm : ∀ e, eget m s = some e → e.missing_data = true) :
    ∀ e, eget m' s = some e → e.missing_data = true := by
  refine foldlM_ok_invariant vpnStep
    (fun m1 => ∀ e, eget m1 s = some e → e.missing_data = true) vs m m' h
    (fun m1 r m2 _ hst hP => ?_) hm
  by_cases hr : r.deviceSerial = some s
  · obtain ⟨e', he', hflag, _, _, _⟩ := vpnStep_self m1 r m2 hst s hr
    intro e he
    rw [he'] at he
    cases he
    rw [hflag]
    cases hx : eget m1 s with
    | none => rfl
    | some e1 => exact hP e1 hx
  · intro e he
    rw [vpnStep_other m1 r m2 hst s hr] at he
    exact hP e he

theorem vpnFold_isSome (m : EMap) (vs : List VpnRecord) (m' : EMap)
    (h : vs.foldlM vpnStep m = .ok m') (s : String)
    (hm : (eget m s).isSome = true) : (eget m' s).isSome = true := by
  refine foldlM_ok_invariant vpnStep
    (fun m1 => (eget m1 s).isSome = true) vs m m' h
    (fun m1 r m2 _ hst hP => ?_) hm
  show (eget m2 s).isSome = true
  by_cases hr : r.deviceSerial = some s
  · obtain ⟨e', he', _, _, _, _⟩ := vpnStep_self m1 r m2 hst s hr
    rw [he']
    rfl
  · rw [vpnStep_other m1 r m2 hst s hr]
    exact hP

theorem vpnFold_establish (m : EMap) (vs : List VpnRecord) (m' : EMap)
    (h : vs.foldlM vpnStep m = .ok m') (s : String)
    (hex : ∃ r ∈ vs, r.deviceSerial = some s) : (eget m' s).isSome = true := by
  obtain ⟨r, hr, hrs⟩ := hex
  obtain ⟨l1, l2, rfl⟩ := List.append_of_mem hr
  rw [List.foldlM_append] at h
  obtain ⟨ma, _, h⟩ := except_bindM_ok _ _ _ h
  rw [List.foldlM_cons] at h
  obtain ⟨mb, hb, h⟩ := except_bindM_ok _ _ _ h
  obtain ⟨e', he', _, _, _, _⟩ := vpnStep_self ma r mb hb s hrs
  exact vpnFold_isSome mb l2 m' h s (by rw [he']; rfl)

theorem vpnFold_spuNone (m : EMap) (vs : List VpnRecord) (m' : EMap)
    (h : vs.foldlM vpnStep m = .ok m') (s : String)
    (hm : ∀ e, eget m s = some e → e.switchPortUsage = none) :
    ∀ e, eget m' s = some e → e.switchPortUsage = none := by
  refine foldlM_ok_invariant vpnStep
    (fun m1 => ∀ e, eget m1 s = some e → e.switchPortUsage = none) vs m m' h
    (fun m1 r m2 _ hst hP => ?_) hm
  by_cases hr : r.deviceSerial = some s
  · obtain ⟨e', he', _, _, _, hspu⟩ := vpnStep_self m1 r m2 hst s hr
    intro e he
    rw [he'] at he
    cases he
    rw [hspu]
    cases hx : eget m1 s with
    | none => rfl
    | some e1 => exact hP e1 hx
  · intro e he
    rw [vpnStep_other m1 r m2 hst s hr] at he
    exact hP e he

theorem vpnFold_vals (m : EMap) (vs : List VpnRecord) (m' : EMap)
    (h : vs.foldlM vpnStep m = .ok m') (s : String) (v w : Option ℚ)
    (hm : ∃ e, eget m s = some e ∧ e.latencyMs = v ∧ e.lossPercent = w) :
    ∃ e, eget m' s = some e ∧ e.latencyMs = v ∧ e.lossPercent = w := by
  refine foldlM_ok_invariant vpnStep
    (fun m1 => ∃ e, eget m1 s = some e ∧ e.latencyMs = v ∧ e.lossPercent = w)
    vs m m' h (fun m1 r m2 _ hst hP => ?_) hm
  obtain ⟨e, he, hv, hw⟩ := hP
  by_cases hr : r.deviceSerial = some s
  · obtain ⟨e', he', _, hlat, hloss, _⟩ := vpnStep_self m1 r m2 hst s hr
    refine ⟨e', he', ?_, ?_⟩
    · rw [hlat, he]
      exact hv
    · rw [hloss, he]
      exact hw
  · refine ⟨e, ?_, hv, hw⟩
    rw [vpnStep_other m1 r m2 hst s hr]
    exact he

theorem vpnFold_untouched (m : EMap) (vs : List VpnRecord) (m' : EMap)
    (h : vs.foldlM vpnStep m = .ok m') (s : String)
    (hno : ∀ r ∈ vs, r.deviceSerial ≠ some s) : eget m' s = eget m s := by
  refine foldlM_ok_invariant vpnStep
    (fun m1 => eget m1 s = eget m s) vs m m' h
    (fun m1 r m2 hmem hst hP => ?_) rfl
  show eget m2 s = eget m s
  rw [vpnStep_other m1 r m2 hst s (hno r hmem)]
  exact hP

theorem usagePass_flag (cfg : MergeCfg) (tm : TagsMap) (dm : DiscMap)
    (sm : StatusMap) (m : EMap) (feed : List UsageDevice) (m' : EMap)
    (h : usagePass cfg tm dm sm m feed = .ok m') (s : String)
    (hm : ∀ e, eget m s = some e → e.missing_data = true) :
    ∀ e, eget m' s = some e → e.missing_data = true := by
  refine foldlM_ok_invariant (usageStep cfg tm dm sm)
    (fun m1 => ∀ e, eget m1 s = some e → e.missing_data = true) feed m m' h
    (fun m1 r m2 _ hst hP => ?_) hm
  by_cases hr : r.serial = some s
  · obtain ⟨e', he', hflag, _, _⟩ := usageStep_self cfg tm dm sm m1 r m2 hst s hr
    intro e he
    rw [he'] at he
    cases he
    rw [hflag]
    cases hx : eget m1 s with
    | none => rfl
    | some e1 => exact hP e1 hx
  · intro e he
    rw [usageStep_other cfg tm dm sm m1 r m2 hst s hr] at he
    exact hP e he

theorem usagePass_isSome (cfg : MergeCfg) (tm : TagsMap) (dm : DiscMap)
    (sm : StatusMap) (m : EMap) (feed : List UsageDevice) (m' : EMap)
    (h : usagePass cfg tm dm sm m feed = .ok m') (s : String)
    (hm : (eget m s).isSome = true) : (eget m' s).isSome = true := by
  refine foldlM_ok_invariant (usageStep cfg tm dm sm)
    (fun m1 => (eget m1 s).isSome = true) feed m m' h
    (fun m1 r m2 _ hst hP => ?_) hm
  show (eget m2 s).isSome = true
  by_cases hr : r.serial = some s
  · obtain ⟨e', he', _, _, _⟩ := usageStep_self cfg tm dm sm m1 r m2 hst s hr
    rw [he']
    rfl
  · rw [usageStep_other cfg tm dm sm m1 r m2 hst s hr]
    exact hP

theorem usagePass_establish (cfg : MergeCfg) (tm : TagsMap) (dm : DiscMap)
    (sm : StatusMap) (m : EMap) (feed : List UsageDevice) (m' : EMap)
    (h : usagePass cfg tm dm sm m feed = .ok m') (s : String)
    (hex : ∃ r ∈ feed, r.serial = some s) : (eget m' s).isSome = true := by
  obtain ⟨r, hr, hrs⟩ := hex
  obtain ⟨l1, l2, rfl⟩ := List.append_of_mem hr
  unfold usagePass at h
  rw [List.foldlM_append] at h
  obtain ⟨ma, _, h⟩ := except_bindM_ok _ _ _ h
  rw [List.foldlM_cons] at h
  obtain ⟨mb, hb, h⟩ := except_bindM_ok _ _ _ h
  obtain ⟨e', he', _, _, _⟩ := usageStep_self cfg tm dm sm ma r mb hb s hrs
  exact usagePass_isSome cfg tm dm sm mb l2 m' h s (by rw [he']; rfl)

theorem usagePass_vals (cfg : MergeCfg) (tm : TagsMap) (dm : DiscMap)
    (sm : StatusMap) (m : EMap) (feed : List UsageDevice) (m' : EMap)
    (h : usagePass cfg tm dm sm m feed = .ok m') (s : String) (v w : Option ℚ)
    (hm : ∃ e, eget m s = some e ∧ e.latencyMs = v ∧ e.lossPercent = w) :
    ∃ e, eget m' s = some e ∧ e.latencyMs = v ∧ e.lossPercent = w := by
  refine foldlM_ok_invariant (usageStep cfg tm dm sm)
    (fun m1 => ∃ e, eget m1 s = some e ∧ e.latencyMs = v ∧ e.lossPercent = w)
    feed m m' h (fun m1 r m2 _ hst hP => ?_) hm
  obtain ⟨e, he, hv, hw⟩ := hP
  by_cases hr : r.serial = some s
  · obtain ⟨e', he', _, hlat, hloss⟩ := usageStep_self cfg tm dm sm m1 r m2 hst s hr
    refine ⟨e', he', ?_, ?_⟩
    · rw [hlat, he]
      exact hv
    · rw [hloss, he]
      exact hw
  · refine ⟨e, ?_, hv, hw⟩
    rw [usageStep_other cfg tm dm sm m1 r m2 hst s hr]
    exact he

theorem usagePass_untouched (cfg : MergeCfg) (tm : TagsMap) (dm : DiscMap)
    (sm : StatusMap) (m : EMap) (feed : List UsageDevice) (m' : EMap)
    (h : usagePass cfg tm dm sm m feed = .ok m') (s : String)
    (hno : ∀ r ∈ feed, r.serial ≠ some s) : eget m' s = eget m s := by
  refine foldlM_ok_invariant (usageStep cfg tm dm sm)
    (fun m1 => eget m1 s = eget m s) feed m m' h
    (fun m1 r m2 hmem hst hP => ?_) rfl
  show eget m2 s = eget m s
  rw [usageStep_other cfg tm dm sm m1 r m2 hst s (hno r hmem)]
  exact hP

/-! ### Pass-level lemmas for the gated VPN pass -/

theorem vpnPass_flag (cfg : MergeCfg) (m : EMap) (vs : List VpnRecord)
    (m' : EMap) (h : vpnPass cfg m vs = .ok m') (s : String)
    (hm : ∀ e, eget m s = some e → e.missing_data = true) :
    ∀ e, eget m' s = some e → e.missing_data = true := by
  unfold vpnPass at h
  split at h
  · exact vpnFold_flag m vs m' h s hm
  · rw [Except.ok.injEq] at h
    subst h
    exact hm

theorem vpnPass_isSome (cfg : MergeCfg) (m : EMap) (vs : List VpnRecord)
    (m' : EMap) (h : vpnPass cfg m vs = .ok m') (s : String)
    (hm : (eget m s).isSome = true) : (eget m' s).isSome = true := by
  unfold vpnPass at h
  split at h
  · exact vpnFold_isSome m vs m' h s hm
  · rw [Except.ok.injEq] at h
    subst h
    exact hm

theorem vpnPass_establish (cfg : MergeCfg) (m : EMap) (vs : List VpnRecord)
    (m' : EMap) (h : vpnPass cfg m vs = .ok m') (s : String)
    (hvpn : cfg.collectVpn = true)
    (hex : ∃ r ∈ vs, r.deviceSerial = some s) : (eget m' s).isSome = true := by
  unfold vpnPass at h
  rw [if_pos hvpn] at h
  exact vpnFold_establish m vs m' h s hex

theorem vpnPass_spuNone (cfg : MergeCfg) (m : EMap) (vs : List VpnRecord)
    (m' : EMap) (h : vpnPass cfg m vs = .ok m') (s : String)
    (hm : ∀ e, eget m s = some e → e.switchPortUsage = none) :
    ∀ e, eget m' s = some e → e.switchPortUsage = none := by
  unfold vpnPass at h
  split at h
  · exact vpnFold_spuNone m vs m' h s hm
  · rw [Except.ok.injEq] at h
    subst h
    exact hm

theorem vpnPass_vals (cfg : MergeCfg) (m : EMap) (vs : List VpnRecord)
    (m' : EMap) (h : vpnPass cfg m vs = .ok m') (s : String) (v w : Option ℚ)
    (hm : ∃ e, eget m s = some e ∧ e.latencyMs = v ∧ e.lossPercent = w) :
    ∃ e, eget m' s = some e ∧ e.latencyMs = v ∧ e.lossPercent = w := by
  unfold vpnPass at h
  split at h
  · exact vpnFold_vals m vs m' h s v w hm
  · rw [Except.ok.injEq] at h
    subst h
    exact hm

theorem vpnPass_untouched (cfg : MergeCfg) (m : EMap) (vs : List VpnRecord)
    (m' : EMap) (h : vpnPass cfg m vs = .ok m') (s : String)
    (hno : ∀ r ∈ vs, r.deviceSerial ≠ some s) : eget m' s = eget m s := by
  unfold vpnPass at h
  split at h
  · exact vpnFold_untouched m vs m' h s hno
  · rw [Except.ok.injEq] at h
    subst h
    rfl

/-- C5: a device serial referenced in the latency, uplink-status, VPN
(when VPN collection is enabled) or switch-port-usage feed but absent
from the primary inventory fetch appears in the output mapping of a
successful merge as a stub entry flagged `missing data = True`. -/
theorem C5_thm (cfg : MergeCfg) (inp : MergeInputs) (out : EMap) (s : String)
    (hok : get_usage_merge cfg inp = .ok out)
    (habsent : ∀ d ∈ inp.devices_and_statuses, d.serial ≠ some s)
    (href :
      (∃ r ∈ inp.firewall_latencies, r.serial = some s) ∨
      (∃ r ∈ inp.firewall_uplink_statuses, r.serial = some s) ∨
      (cfg.collectVpn = true ∧ ∃ r ∈ inp.vpn_statuses, r.deviceSerial = some s) ∨
      (∃ r ∈ inp.switch_ports_usage, r.serial = some s)) :
    (eget out s).map Entry.missing_data = some true := by
  obtain ⟨m1, m2, m3, m4, h1, h2, h3, h4, hout⟩ := merge_decompose cfg inp out hok
  have hseed : eget (seedPass inp.org_data inp.networks_map
      inp.devices_floor_info inp.devices_and_statuses) s = none :=
    seedPass_absent _ _ _ _ _ habsent
  have hflag0 : ∀ e, eget (seedPass inp.org_data inp.networks_map
      inp.devices_floor_info inp.devices_and_statuses) s = some e →
      e.missing_data = true := by
    intro e he
    rw [hseed] at he
    exact Option.noConfusion he
  have hflag1 := latPass_flag _ _ _ h1 s hflag0
  have hflag2 := uplinkPass_flag _ _ _ h2 s hflag1
  have hflag3 := vpnPass_flag cfg _ _ _ h3 s hflag2
  have hflag4 := usagePass_flag cfg _ _ _ _ _ _ h4 s hflag3
  have hsome4 : (eget m4 s).isSome = true := by
    rcases href with hlat | hup | ⟨hvpn, hv⟩ | hus
    · exact usagePass_isSome cfg _ _ _ _ _ _ h4 s
        (vpnPass_isSome cfg _ _ _ h3 s
          (uplinkPass_isSome _ _ _ h2 s (latPass_establish _ _ _ h1 s hlat)))
    · exact usagePass_isSome cfg _ _ _ _ _ _ h4 s
        (vpnPass_isSome cfg _ _ _ h3 s (uplinkPass_establish _ _ _ h2 s hup))
    · exact usagePass_isSome cfg _ _ _ _ _ _ h4 s
        (vpnPass_establish cfg _ _ _ h3 s hvpn hv)
    · exact usagePass_establish cfg _ _ _ _ _ _ h4 s hus
  obtain ⟨e4, he4⟩ := Option.isSome_iff_exists.mp hsome4
  obtain ⟨e5, he5, f5, _, _, _⟩ :=
    (clientsPass_pres inp.ap_clients_info m4 s).2 e4 he4
  obtain ⟨e6, he6, f6, _, _, _⟩ :=
    (cpuPass_pres inp.ap_cpu_loads _ s).2 e5 he5
  obtain ⟨e7, he7, f7, _, _, _⟩ :=
    (memPass_pres inp.device_memory_usage _ s).2 e6 he6
  rw [hout, he7]
  show some e7.missing_data = some true
  rw [f7, f6, f5, hflag4 e4 he4]

/-- C5 witness: the serial `S` appears only in the latency feed; the
merged mapping stubs it with the missing-data flag set. -/
theorem C5_thm_witness :
    (eget [("S", outEntryS)] "S").map Entry.missing_data = some true :=
  C5_thm {} { firewall_latencies := dupLatFeed } [("S", outEntryS)] "S" rfl
    (fun d hd _ => absurd hd (List.not_mem_nil d))
    (Or.inl ⟨firstRecS, List.mem_cons_self _ _, rfl⟩)

/-- C6 counterexample: with two latency-feed records for the same
serial, the earlier record's last sample does not survive to the merged
entry (the later record overwrites it), refuting the claim read over
every latency-feed record. -/
theorem C6_counterexample :
    ¬ (∀ (cfg : MergeCfg) (inp : MergeInputs) (out : EMap)
        (r : LatencyRecord) (s : String) (ts : List TimeSample)
        (last : TimeSample),
        get_usage_merge cfg inp = .ok out →
        r ∈ inp.firewall_latencies → r.serial = some s →
        r.timeSeries = some ts → ts.getLast? = some last →
        ∃ e, eget out s = some e ∧ e.latencyMs = last.latencyMs
          ∧ e.lossPercent = last.lossPercent) := by
  intro hall
  obtain ⟨e, he, hlat, _⟩ := hall {} { firewall_latencies := dupLatFeed }
    [("S", outEntryS)] firstRecS "S"
    [{ latencyMs := some 12, lossPercent := some 0 }]
    { latencyMs := some 12, lossPercent := some 0 }
    rfl (List.mem_cons_self _ _) rfl rfl rfl
  rw [show eget [("S", outEntryS)] "S" = some outEntryS from rfl] at he
  injection he with he
  subst he
  exact absurd hlat (by decide)

/-- C6: for the last latency-feed record bearing a given serial, the
merged entry's `latencyMs` and `lossPercent` equal those of the last
element of that record's `timeSeries` (the most recent sample), not an
average of the samples. -/
theorem C6_thm (cfg : MergeCfg) (inp : MergeInputs) (out : EMap)
    (r : LatencyRecord) (s : String) (ts : List TimeSample)
    (last : TimeSample) (l1 l2 : List LatencyRecord)
    (hok : get_usage_merge cfg inp = .ok out)
    (hsplit : inp.firewall_latencies = l1 ++ r :: l2)
    (hlast : ∀ r2 ∈ l2, r2.serial ≠ some s)
    (hs : r.serial = some s) (hts : r.timeSeries = some ts)
    (hl : ts.getLast? = some last) :
    ∃ e, eget out s = some e ∧ e.latencyMs = last.latencyMs
      ∧ e.lossPercent = last.lossPercent := by
  obtain ⟨m1, m2, m3, m4, h1, h2, h3, h4, hout⟩ := merge_decompose cfg inp out hok
  rw [hsplit] at h1
  unfold latPass at h1
  rw [List.foldlM_append] at h1
  obtain ⟨ma, _, h1⟩ := except_bindM_ok _ _ _ h1
  rw [List.foldlM_cons] at h1
  obtain ⟨mb, hb, h1⟩ := except_bindM_ok _ _ _ h1
  obtain ⟨e0, he0, hv0, hw0⟩ := latStep_values ma r mb hb s ts last hs hts hl
  have hm1 : eget m1 s = eget mb s := latPass_untouched mb l2 m1 h1 s hlast
  have hvals2 := uplinkPass_vals m1 _ m2 h2 s _ _
    ⟨e0, by rw [hm1]; exact he0, hv0, hw0⟩
  have hvals3 := vpnPass_vals cfg m2 _ m3 h3 s _ _ hvals2
  have hvals4 := usagePass_vals cfg _ _ _ m3 _ m4 h4 s _ _ hvals3
  obtain ⟨e4, he4, hv4, hw4⟩ := hvals4
  obtain ⟨e5, he5, _, v5, w5, _⟩ :=
    (clientsPass_pres inp.ap_clients_info m4 s).2 e4 he4
  obtain ⟨e6, he6, _, v6, w6, _⟩ :=
    (cpuPass_pres inp.ap_cpu_loads _ s).2 e5 he5
  obtain ⟨e7, he7, _, v7, w7, _⟩ :=
    (memPass_pres inp.device_memory_usage _ s).2 e6 he6
  refine ⟨e7, by rw [hout]; exact he7, ?_, ?_⟩
  · rw [v7, v6, v5, hv4]
  · rw [w7, w6, w5, hw4]

/-- C6 witness: the second `dupLatFeed` record is the last bearer of
serial `S`; the merged entry carries its last sample (20 ms, 1 %). -/
theorem C6_thm_witness :
    ∃ e, eget [("S", outEntryS)] "S" = some e
      ∧ e.latencyMs = lastSampleS.latencyMs
      ∧ e.lossPercent = lastSampleS.lossPercent :=
  C6_thm {} { firewall_latencies := dupLatFeed } [("S", outEntryS)]
    lastRecS "S" [lastSampleS] lastSampleS [firstRecS] [] rfl rfl
    (fun r2 hr2 => absurd hr2 (List.not_mem_nil r2)) rfl rfl rfl

/-! ### Boolean helpers for the keep/skip condition of the usage pass -/

theorem bool_notand_parts_true (a b : Bool) (h : (!a && !b) = true) :
    a = false ∧ b = false := by
  cases a <;> cases b <;> simp_all

theorem bool_notand_parts_false (a b : Bool) (h : (!a && !b) = false) :
    a = true ∨ b = true := by
  cases a <;> cases b <;> simp_all

theorem bool_notand_of_or (a b : Bool) (h : a = true ∨ b = true) :
    (!a && !b) = false := by
  cases a <;> cases b <;> simp_all

/-- Field values of a port-usage record built from scratch: bandwidth
leaves always written with 0-defaults, byte leaves only when usage
collection is on, the AP name only for an AP-attached port. -/
theorem builtPortUsage_spec (cfg : MergeCfg) (latest : UsageInterval)
    (ap : Bool × Option String) :
    (builtPortUsage cfg latest ap {}).bandwidthTotalKbps
        = some (((latest.bandwidth.getD {}).usage.getD {}).total.getD 0)
    ∧ (builtPortUsage cfg latest ap {}).bandwidthUpstreamKbps
        = some (((latest.bandwidth.getD {}).usage.getD {}).upstream.getD 0)
    ∧ (builtPortUsage cfg latest ap {}).bandwidthDownstreamKbps
        = some (((latest.bandwidth.getD {}).usage.getD {}).downstream.getD 0)
    ∧ (cfg.collectUsage = true →
        (builtPortUsage cfg latest ap {}).UsageTotalBytes
            = some (((latest.data.getD {}).usage.getD {}).total.getD 0)
        ∧ (builtPortUsage cfg latest ap {}).UsageUpstreamBytes
            = some (((latest.data.getD {}).usage.getD {}).upstream.getD 0)
        ∧ (builtPortUsage cfg latest ap {}).UsageDownstreamBytes
            = some (((latest.data.getD {}).usage.getD {}).downstream.getD 0))
    ∧ (ap.1 = true →
        (builtPortUsage cfg latest ap {}).ap_device_name = ap.2) := by
  cases hcu : cfg.collectUsage <;> cases hap : ap.1 <;>
    simp [builtPortUsage, hcu, hap]

/-- C7 counterexample: with two port records sharing the same port id,
the one without interval data still ends up with a `switchPortUsage`
entry (contributed by its duplicate), refuting the claim read as an
iff over every port record of the feed. -/
theorem C7_counterexample :
    ¬ (∀ (cfg : MergeCfg) (inp : MergeInputs) (out : EMap)
        (d : UsageDevice) (p : UsagePort) (s pid : String),
        get_usage_merge cfg inp = .ok out →
        d ∈ inp.switch_ports_usage → d.serial = some s →
        p ∈ d.ports → p.portId = some pid →
        ((portUsageAt out s pid).isSome = true ↔
          p.intervals ≠ [] ∧
            (is_uplink_port pid (some s) (some inp.port_tags_map)
                (some inp.port_discovery_map) (some inp.port_statuses_map) = true
              ∨ (is_ap_device pid (some s)
                  (some inp.port_discovery_map)).1 = true))) := by
  intro hall
  have h := hall {}
    { switch_ports_usage := [dupPortDevice], port_discovery_map := discSW }
    [("SW", outEntrySW)] dupPortDevice noIntPort "SW" "1"
    rfl (List.mem_cons_self _ _) rfl (List.mem_cons_self _ _) rfl
  obtain ⟨hne, _⟩ := h.mp rfl
  exact hne rfl

/-- C7: when a serial is borne by exactly one usage-feed device and a
port id by exactly one of its port records, that device's
`switchPortUsage` has an entry at the port id iff the port has interval
data and is classified uplink or access-point-attached; a kept entry is
built from the last interval with 0-defaulted bandwidth (and, when
usage collection is on, byte) leaves, and carries the AP neighbor name
when AP-attached.  All other ports are omitted. -/
theorem C7_thm (cfg : MergeCfg) (inp : MergeInputs) (out : EMap)
    (d : UsageDevice) (p : UsagePort) (s pid : String)
    (f1 f2 : List UsageDevice) (q1 q2 : List UsagePort)
    (hok : get_usage_merge cfg inp = .ok out)
    (hfeed : inp.switch_ports_usage = f1 ++ d :: f2)
    (hf1 : ∀ d2 ∈ f1, d2.serial ≠ some s)
    (hf2 : ∀ d2 ∈ f2, d2.serial ≠ some s)
    (hds : d.serial = some s)
    (hports : d.ports = q1 ++ p :: q2)
    (hppid : p.portId = some pid)
    (hq1 : ∀ q ∈ q1, q.portId.getD "" ≠ pid)
    (hq2 : ∀ q ∈ q2, q.portId.getD "" ≠ pid) :
    ((portUsageAt out s pid).isSome = true ↔
      p.intervals ≠ [] ∧
        (is_uplink_port pid (some s) (some inp.port_tags_map)
            (some inp.port_discovery_map) (some inp.port_statuses_map) = true
          ∨ (is_ap_device pid (some s) (some inp.port_discovery_map)).1 = true))
    ∧ (∀ latest, p.intervals.getLast? = some latest →
        (is_uplink_port pid (some s) (some inp.port_tags_map)
            (some inp.port_discovery_map) (some inp.port_statuses_map) = true
          ∨ (is_ap_device pid (some s) (some inp.port_discovery_map)).1 = true) →
        ∃ pu, portUsageAt out s pid = some pu
          ∧ pu.bandwidthTotalKbps
              = some (((latest.bandwidth.getD {}).usage.getD {}).total.getD 0)
          ∧ pu.bandwidthUpstreamKbps
              = some (((latest.bandwidth.getD {}).usage.getD {}).upstream.getD 0)
          ∧ pu.bandwidthDownstreamKbps
              = some (((latest.bandwidth.getD {}).usage.getD {}).downstream.getD 0)
          ∧ (cfg.collectUsage = true →
              pu.UsageTotalBytes
                  = some (((latest.data.getD {}).usage.getD {}).total.getD 0)
              ∧ pu.UsageUpstreamBytes
                  = some (((latest.data.getD {}).usage.getD {}).upstream.getD 0)
              ∧ pu.UsageDownstreamBytes
                  = some (((latest.data.getD {}).usage.getD {}).downstream.getD 0))
          ∧ ((is_ap_device pid (some s) (some inp.port_discovery_map)).1 = true →
              pu.ap_device_name
                = (is_ap_device pid (some s) (some inp.port_discovery_map)).2)) := by
  obtain ⟨m1, m2, m3, m4, h1, h2, h3, h4, hout⟩ := merge_decompose cfg inp out hok
  have hspu3 : ∀ e, eget m3 s = some e → e.switchPortUsage = none :=
    vpnPass_spuNone cfg m2 inp.vpn_statuses m3 h3 s
      (uplinkPass_spuNone m1 _ m2 h2 s
        (latPass_spuNone _ _ m1 h1 s
          (seedPass_spu_none inp.org_data inp.networks_map
            inp.devices_floor_info s inp.devices_and_statuses)))
  rw [hfeed] at h4
  unfold usagePass at h4
  rw [List.foldlM_append] at h4
  obtain ⟨ma, ha, h4⟩ := except_bindM_ok _ _ _ h4
  rw [List.foldlM_cons] at h4
  obtain ⟨mb, hb, h4⟩ := except_bindM_ok _ _ _ h4
  have hma : eget ma s = eget m3 s :=
    usagePass_untouched cfg _ _ _ m3 f1 ma ha s hf1
  obtain ⟨eb, heb, hvb⟩ := usageStep_pid cfg _ _ _ ma d mb hb s hds q1 q2 p
    pid hports (by rw [hppid]; rfl) hq1 hq2
  have hbase : aget ((((eget ma s).getD stubEntry).switchPortUsage).getD [])
      pid = none := by
    rw [hma]
    cases hx : eget m3 s with
    | none => rfl
    | some e3 =>
      show aget ((e3.switchPortUsage).getD []) pid = none
      rw [hspu3 e3 hx]
      rfl
  have hm4 : eget m4 s = eget mb s :=
    usagePass_untouched cfg _ _ _ mb f2 m4 h4 s hf2
  obtain ⟨e5, he5, _, _, _, s5⟩ :=
    (clientsPass_pres inp.ap_clients_info m4 s).2 eb (by rw [hm4]; exact heb)
  obtain ⟨e6, he6, _, _, _, s6⟩ :=
    (cpuPass_pres inp.ap_cpu_loads _ s).2 e5 he5
  obtain ⟨e7, he7, _, _, _, s7⟩ :=
    (memPass_pres inp.device_memory_usage _ s).2 e6 he6
  have hpua : portUsageAt out s pid =
      aget (eb.switchPortUsage.getD []) pid := by
    unfold portUsageAt
    rw [hout]
    simp only [he7]
    rw [s7, s6, s5]
  rw [hvb] at hpua
  rw [hbase] at hpua
  simp only [Option.getD_none] at hpua
  constructor
  · cases hI : p.intervals.getLast? with
    | none =>
      simp only [hI] at hpua
      rw [hpua]
      constructor
      · intro hfalse
        exact Bool.noConfusion hfalse
      · rintro ⟨hne, _⟩
        exact absurd (List.getLast?_eq_none_iff.mp hI) hne
    | some latest =>
      simp only [hI] at hpua
      have hne : p.intervals ≠ [] := by
        intro hnil
        rw [hnil] at hI
        exact Option.noConfusion hI
      cases hcond : (!(is_uplink_port pid (some s) (some inp.port_tags_map)
          (some inp.port_discovery_map) (some inp.port_statuses_map))
        && !(is_ap_device pid (some s) (some inp.port_discovery_map)).1) with
      | true =>
        rw [if_pos hcond] at hpua
        rw [hpua]
        obtain ⟨hu, hap⟩ := bool_notand_parts_true _ _ hcond
        constructor
        · intro hfalse
          exact Bool.noConfusion hfalse
        · rintro ⟨_, h | h⟩
          · rw [hu] at h
            exact Bool.noConfusion h
          · rw [hap] at h
            exact Bool.noConfusion h
      | false =>
        rw [if_neg (by rw [hcond]; exact Bool.false_ne_true)] at hpua
        rw [hpua]
        constructor
        · intro _
          exact ⟨hne, bool_notand_parts_false _ _ hcond⟩
        · intro _
          rfl
  · intro latest hlatest hkept
    simp only [hlatest] at hpua
    have hcondf := bool_notand_of_or _ _ hkept
    rw [if_neg (by rw [hcondf]; exact Bool.false_ne_true)] at hpua
    obtain ⟨b1, b2, b3, b4, b5⟩ := builtPortUsage_spec cfg latest
      (is_ap_device pid (some s) (some inp.port_discovery_map))
    exact ⟨_, hpua, b1, b2, b3, b4, b5⟩

/-- C7 witness: the single port of `c7Dev` has interval data and a
discovered switch-class neighbor, so its kept entry carries the last
interval's bandwidth leaves. -/
theorem C7_thm_witness :
    ∃ pu, portUsageAt [("SW", outEntrySW)] "SW" "1" = some pu
      ∧ pu.bandwidthTotalKbps = some 7
      ∧ pu.bandwidthUpstreamKbps = some 3
      ∧ pu.bandwidthDownstreamKbps = some 4
      ∧ (({} : MergeCfg).collectUsage = true →
          pu.UsageTotalBytes = some 0 ∧ pu.UsageUpstreamBytes = some 0
          ∧ pu.UsageDownstreamBytes = some 0)
      ∧ ((is_ap_device "1" (some "SW") (some c7Inp.port_discovery_map)).1 = true →
          pu.ap_device_name
            = (is_ap_device "1" (some "SW") (some c7Inp.port_discovery_map)).2) :=
  (C7_thm {} c7Inp [("SW", outEntrySW)] c7Dev datPort "SW" "1" [] [] [] []
    rfl rfl
    (fun d2 hd2 => absurd hd2 (List.not_mem_nil d2))
    (fun d2 hd2 => absurd hd2 (List.not_mem_nil d2))
    rfl rfl rfl
    (fun q hq => absurd hq (List.not_mem_nil q))
    (fun q hq => absurd hq (List.not_mem_nil q))).2
    { bandwidth := some { usage := some { total := some 7, upstream := some 3, downstream := some 4 } } }
    rfl (Or.inl rfl)
